import Mathlib

/-!
# Router plugin (plugins/router/router.go): shallow embedding

The plugin is a sequence of calls into collaborators (the CNI libraries, the
`utils`, `config`, `logging` and `networking` packages, netlink, the Go standard
library).  Every collaborator is a field of `Env`.  A collaborator that reads or
changes the namespace or the kernel receives the history of the calls made so far,
so its answer may change from call to call (a rule add may succeed once and answer
"already exists" the next time).  Every such call is recorded, with its answer, in
the list of events a function returns next to its result.

Logger calls have no influence on control flow and are left out.  `netns.Do(f)`
runs `f` and returns its error.  Collaborators are taken to return: a panic inside a
collaborator is outside the model; the nil pointer dereferences of the plugin itself
are modelled (`Outcome.nilDeref`).
-/

namespace Router

set_option linter.unusedVariables false

/-! ## Errors and outcomes -/

/-- Error values.  `eexist` is any error for which `os.IsExist` holds,
`nsPathNotExist` is `ns.NSPathNotExistErr`, `other` is any other error a
collaborator may return, `new` and `wrap` are `fmt.Errorf` without and with a
`%v` cause. -/
inductive Err where
  | eexist
  | nsPathNotExist
  | other (code : Nat)
  | new (msg : String)
  | wrap (msg : String) (cause : Err)
deriving DecidableEq, Repr

/-- Model of `os.IsExist(err)`. -/
def osIsExist : Err → Bool
  | .eexist => true
  | _ => false

/-- Model of the type assertion `err.(ns.NSPathNotExistErr)`. -/
def isNSPathNotExistErr : Err → Bool
  | .nsPathNotExist => true
  | _ => false

/-- What a command does: it returns an error value (`none` is `nil`), or the Go
runtime panics on a nil pointer dereference of the named expression. -/
inductive Outcome where
  | ret (err : Option Err)
  | nilDeref (expr : String)
deriving DecidableEq, Repr

/-! ## Addresses -/

/-- A `net.IP`: `is4` says whether `To4()` is non-nil, `val` is the address as a
big-endian number. -/
structure IP where
  is4 : Bool
  val : Nat
deriving DecidableEq, Repr

/-- Model of `ip.To4()`: non-nil exactly for an IPv4 address. -/
def IP.To4 (ip : IP) : Option IP := if ip.is4 then some ip else none

/-- A `net.IPMask` built by `net.CIDRMask(ones, bits)`. -/
structure IPMask where
  ones : Nat
  bits : Nat
deriving DecidableEq, Repr

/-- Model of `net.CIDRMask`. -/
def CIDRMask (ones bits : Nat) : IPMask := ⟨ones, bits⟩

/-- A `net.IPNet`. -/
structure IPNet where
  IP : IP
  Mask : IPMask
deriving DecidableEq, Repr

/-- Model of `(*net.IPNet).Contains`: same family and equal network bits. -/
def IPNet.Contains (n : IPNet) (ip : Router.IP) : Bool :=
  n.IP.is4 == ip.is4 &&
    n.IP.val / 2 ^ (n.Mask.bits - n.Mask.ones) == ip.val / 2 ^ (n.Mask.bits - n.Mask.ones)

/-! ## Netlink objects -/

/-- The constants `netlink.FAMILY_V4` and `netlink.FAMILY_V6`. -/
inductive Family where
  | FAMILY_V4
  | FAMILY_V6
deriving DecidableEq, Repr

/-- The route scopes of netlink; the plugin uses `SCOPE_LINK`. -/
inductive Scope where
  | SCOPE_UNIVERSE
  | SCOPE_SITE
  | SCOPE_LINK
  | SCOPE_HOST
  | SCOPE_NOWHERE
deriving DecidableEq, Repr

/-- The fields of `netlink.Rule` the plugin sets on a `netlink.NewRule()`. -/
structure Rule where
  Table : Int
  Family : Family
  Dst : IPNet
deriving DecidableEq, Repr

/-- The fields of `netlink.Route` the plugin sets. -/
structure Route where
  LinkIndex : Int
  Dst : IPNet
  Scope : Scope
  Table : Int
deriving DecidableEq, Repr

/-- The fields of `netlink.LinkAttrs` the plugin reads. -/
structure LinkAttrs where
  Name : String
  ParentIndex : Int
deriving DecidableEq, Repr

/-- The constant `unix.RT_TABLE_MAIN`. -/
def RT_TABLE_MAIN : Int := 254

/-- The package variable `overlayRouteTable`. -/
def overlayRouteTable : Int := 100

/-! ## Configuration and the previous result -/

/-- An entry of `Result.Interfaces`. -/
structure Interface where
  Name : String
deriving DecidableEq, Repr

/-- An entry of `Result.IPs`. -/
structure IPConfig where
  Address : IPNet
deriving DecidableEq, Repr

/-- The CNI result of the previous plugin in the chain. -/
structure Result where
  Interfaces : List Interface
  IPs : List IPConfig
deriving DecidableEq, Repr

/-- The embedded `types.NetConf`: the fields the plugin reads. -/
structure NetConf where
  CNIVersion : String
  PrevResult : Option Result
deriving DecidableEq, Repr

/-- The type `ty.MigrateRoute`. -/
structure MigrateRoute where
  value : Int
deriving DecidableEq, Repr

/-- The type `ty.RPFilter`. -/
structure RPFilter where
  Enable : Option Bool
  Value : Option Int
deriving DecidableEq, Repr

/-- The type `ty.LogOptions`. -/
structure LogOptions where
  LogLevel : String
  LogFilePath : String
deriving DecidableEq, Repr

/-- The type `ty.IPConflict`. -/
structure IPConflict where
  Enabled : Bool
  Interval : String
  Retry : Int
deriving DecidableEq, Repr

/-- The struct `PluginConf`; a Go pointer field is an `Option`. -/
structure PluginConf where
  NetConf : NetConf
  OverlayHijackSubnet : List String
  ServiceHijackSubnet : List String
  AdditionalHijackSubnet : List String
  MigrateRoute : Option MigrateRoute
  DefaultOverlayInterface : String
  HostRuleTable : Option Int
  RPFilter : Option RPFilter
  Skipped : Bool
  Sriov : Bool
  OnlyOpMac : Bool
  LogOptions : Option LogOptions
  IPConflict : Option IPConflict
  MacPrefix : String
deriving DecidableEq, Repr

/-- The fields of `skel.CmdArgs` the plugin reads. -/
structure CmdArgs where
  ContainerID : String
  Netns : String
  IfName : String
  Args : String
  StdinData : String
deriving DecidableEq, Repr

/-- The constant `constant.RouterLogDefaultFilePath`. -/
def RouterLogDefaultFilePath : String := "/var/log/meta-plugins/router.log"

/-! ## Events -/

deriving instance DecidableEq for Except

/-- One recorded call with its answer.  `addChainedIPRoute` and `addHostIPRoute`
record that `cmdAdd` calls the function of that name, with its arguments. -/
inductive Ev where
  | PrintResult (prev : Option Result) (cniVersion : String) (res : Option Err)
  | GetNS (path : String) (res : Option Err)
  | Close
  | DoIPConflictChecking (ifName : String) (ips : List IPConfig) (res : Option Err)
  | OverwriteMacAddress (macPrefix ifName : String) (res : Except Err String)
  | GetChainedInterfaceIps (ifName : String) (v4 v6 : Bool) (res : Except Err (List String))
  | GetRuleNumber (ifName : String) (res : Int)
  | AddStaticNeighTable (sriov v4 v6 : Bool) (overlay : String) (ips : List String)
      (res : Option Err)
  | EnableIpv6Sysctl (res : Option Err)
  | addChainedIPRoute (sriov v4 v6 : Bool) (hostRuleTable : Int) (overlay : String)
      (chainedIPs : List String)
  | addHostIPRoute (ruleTable : Int) (overlay : String) (sriov v4 v6 : Bool)
  | LinkByName (name : String) (res : Except Err LinkAttrs)
  | LinkByIndex (index : Int) (res : Except Err LinkAttrs)
  | GetHostIps (v4 v6 : Bool) (res : Except Err (List String))
  | RuleAdd (rule : Rule) (res : Option Err)
  | RouteAdd (route : Route) (res : Option Err)
  | utilsRouteAdd (table : Int) (iface : String) (ips : List String) (v4 v6 : Bool)
      (res : Option Err)
  | HijackCustomSubnet (service overlay additional defaultIPs : List String) (table : Int)
      (v4 v6 : Bool) (res : Option Err)
  | MigrateRoute (iface chained : String) (defaultIPs : List String) (mr : MigrateRoute)
      (table : Int) (v4 v6 : Bool) (res : Option Err)
  | SysctlRPFilter (rp : Option RPFilter) (res : Option Err)
  | RuleDel (table : Int) (ips : List String) (res : Option Err)
deriving DecidableEq

/-! ## Collaborators -/

/-- The collaborators of the plugin.  The first group are functions of their
arguments; the second group also receive the events so far. -/
structure Env where
  jsonUnmarshal : String → Except Err PluginConf
  ParsePrevResult : NetConf → Except Err NetConf
  ValidateOverwriteMacAddress : String → Option Err
  InitLogOptions : Option LogOptions → LogOptions
  ValidateRoutes : List String → List String → Except Err (List String × List String)
  ValidateIPConflict : IPConflict → IPConflict
  ParseDuration : String → Option Err
  ValidateMigrateRouteConfig : Option MigrateRoute → Option MigrateRoute
  ValidateRPFilterConfig : Option RPFilter → Option RPFilter
  SetLogOptions : Option LogOptions → Option Err
  LoadArgs : String → Option Err
  GetResult : Result → Except Err Result
  ParseCIDR : String → Except Err (IP × IPNet)
  GetDefaultRouteInterface : String → String
  GetRuleNumber : String → Int
  PrintResult : List Ev → Option Result → String → Option Err
  GetNS : List Ev → String → Option Err
  DoIPConflictChecking : List Ev → String → List IPConfig → IPConflict → Option Err
  OverwriteMacAddress : List Ev → String → String → Except Err String
  GetChainedInterfaceIps : List Ev → String → Bool → Bool → Except Err (List String)
  AddStaticNeighTable : List Ev → Bool → Bool → Bool → String → List String → Option Err
  EnableIpv6Sysctl : List Ev → Option Err
  LinkByName : List Ev → String → Except Err LinkAttrs
  LinkByIndex : List Ev → Int → Except Err LinkAttrs
  GetHostIps : List Ev → Bool → Bool → Except Err (List String)
  RuleAdd : List Ev → Rule → Option Err
  RouteAdd : List Ev → Route → Option Err
  utilsRouteAdd : List Ev → Int → String → List String → Bool → Bool → Option Err
  HijackCustomSubnet : List Ev → List String → List String → List String → List String →
    Int → Bool → Bool → Option Err
  MigrateRoute : List Ev → String → String → List String → MigrateRoute → Int → Bool → Bool →
    Option Err
  SysctlRPFilter : List Ev → Option RPFilter → Option Err
  RuleDel : List Ev → Int → List String → Option Err

/-! ## addChainedIPRoute -/

/-- The destination built for a matching chained address: the address itself with
a full-length mask of its family. -/
def chainedDst (netIP : IP) : IPNet :=
  match netIP.To4 with
  | some _ => { IP := netIP, Mask := CIDRMask 32 32 }
  | none => { IP := netIP, Mask := CIDRMask 128 128 }

/-- The family chosen for a matching chained address. -/
def chainedFamily (netIP : IP) : Family :=
  match netIP.To4 with
  | some _ => Family.FAMILY_V4
  | none => Family.FAMILY_V6

/-- The rule `addChainedIPRoute` adds for a chained address. -/
def chainedRule (hostRuleTable : Int) (netIP : IP) : Rule :=
  { Table := hostRuleTable, Family := chainedFamily netIP, Dst := chainedDst netIP }

/-- The route `addChainedIPRoute` adds for a chained address. -/
def chainedRoute (hostRuleTable parentIndex : Int) (netIP : IP) : Route :=
  { LinkIndex := parentIndex, Dst := chainedDst netIP, Scope := Scope.SCOPE_LINK,
    Table := hostRuleTable }

/-- The three kinds of `return` with an error inside the loop of
`addChainedIPRoute`: a failed `net.ParseCIDR`, a failed `netlink.RuleAdd`, a failed
`netlink.RouteAdd`. -/
inductive LoopErr where
  | parse (err : Err)
  | rule (err : Err)
  | route (err : Err)
deriving DecidableEq, Repr

/-- The error value returned for each kind of failure in the loop. -/
def LoopErr.toErr : LoopErr → Err
  | .parse err => err
  | .rule err => .wrap "failed to add rule table for underlay interface: %v" err
  | .route err => .wrap "failed to add route for underlay interface: %v" err

/-- The test `err != nil && !os.IsExist(err)` on the answer of an add. -/
def addFailed : Option Err → Option Err
  | some err => if osIsExist err then none else some err
  | none => none

/-- The body of `if ipNet.Contains(ip)`: rule add, route add, then `break`.
Returns the failure, if any, and the events. -/
def installChained (env : Env) (hostRuleTable parentIndex : Int) (netIP : IP) (h : List Ev) :
    Option LoopErr × List Ev :=
  let rule := chainedRule hostRuleTable netIP
  let r1 := env.RuleAdd h rule
  let e1 := [Ev.RuleAdd rule r1]
  match addFailed r1 with
  | some err => (some (.rule err), e1)
  | none =>
    let route := chainedRoute hostRuleTable parentIndex netIP
    let r2 := env.RouteAdd (h ++ e1) route
    let e2 := e1 ++ [Ev.RouteAdd route r2]
    match addFailed r2 with
    | some err => (some (.route err), e2)
    | none => (none, e2)

/-- The inner loop `for _, hostIP := range hostIPs` for one chained address. -/
def hostIPLoop (env : Env) (hostRuleTable parentIndex : Int) (netIP : IP) (ipNet : IPNet)
    (h : List Ev) : List String → Option LoopErr × List Ev
  | [] => (none, [])
  | hostIP :: rest =>
    match env.ParseCIDR hostIP with
    | .error err => (some (.parse err), [])
    | .ok (ip, _) =>
      if ipNet.Contains ip then installChained env hostRuleTable parentIndex netIP h
      else hostIPLoop env hostRuleTable parentIndex netIP ipNet h rest

/-- The outer loop `for _, chainedIP := range chainedIPs`. -/
def chainedIPLoop (env : Env) (hostRuleTable parentIndex : Int) (hostIPs : List String) :
    List Ev → List String → Option LoopErr × List Ev
  | _, [] => (none, [])
  | h, chainedIP :: rest =>
    match env.ParseCIDR chainedIP with
    | .error err => (some (.parse err), [])
    | .ok (netIP, ipNet) =>
      match hostIPLoop env hostRuleTable parentIndex netIP ipNet h hostIPs with
      | (some err, e1) => (some err, e1)
      | (none, e1) =>
        let r := chainedIPLoop env hostRuleTable parentIndex hostIPs (h ++ e1) rest
        (r.1, e1 ++ r.2)

/-- The function `addChainedIPRoute`, run after the events `h`; returns its error
and the events it adds. -/
def addChainedIPRoute (env : Env) (h : List Ev) (iSriov enableIpv4 enableIpv6 : Bool)
    (hostRuleTable : Int) (defaultOverlayInterface : String) (chainedIPs : List String) :
    Option Err × List Ev :=
  if iSriov then (none, [])
  else
    let r1 := env.LinkByName h defaultOverlayInterface
    let e1 := [Ev.LinkByName defaultOverlayInterface r1]
    match r1 with
    | .error err => (some (.wrap "failed to get parentIndex of %s in pod: %v" err), e1)
    | .ok link =>
      let parentIndex := link.ParentIndex
      if parentIndex < 0 then (some (.new "parentIndex on found"), e1)
      else
        let r2 := env.LinkByIndex (h ++ e1) parentIndex
        let e2 := e1 ++ [Ev.LinkByIndex parentIndex r2]
        match r2 with
        | .error err =>
          (some (.wrap "failed to found default overlay veth interface: %v" err), e2)
        | .ok _ =>
          let r3 := env.GetHostIps (h ++ e2) true true
          let e3 := e2 ++ [Ev.GetHostIps true true r3]
          match r3 with
          | .error err => (some (.wrap "failed to get host ips: %v" err), e3)
          | .ok hostIPs =>
            let r := chainedIPLoop env hostRuleTable parentIndex hostIPs (h ++ e3) chainedIPs
            (r.1.map LoopErr.toErr, e3 ++ r.2)

/-! ## addHostIPRoute -/

/-- The function `addHostIPRoute`, run after the events `h`. -/
def addHostIPRoute (env : Env) (h : List Ev) (ruleTable : Int) (defaultInterface : String)
    (iSriov enableIpv4 enableIpv6 : Bool) : Option Err × List Ev :=
  if iSriov then (none, [])
  else
    let r1 := env.GetHostIps h enableIpv4 enableIpv6
    let e1 := [Ev.GetHostIps enableIpv4 enableIpv6 r1]
    match r1 with
    | .error err => (some err, e1)
    | .ok hostIPs =>
      if ruleTable = overlayRouteTable then
        let r2 := env.utilsRouteAdd (h ++ e1) RT_TABLE_MAIN defaultInterface hostIPs
          enableIpv4 enableIpv6
        let e2 := e1 ++ [Ev.utilsRouteAdd RT_TABLE_MAIN defaultInterface hostIPs
          enableIpv4 enableIpv6 r2]
        match r2 with
        | some err => (some err, e2)
        | none =>
          let r3 := env.utilsRouteAdd (h ++ e2) ruleTable defaultInterface hostIPs
            enableIpv4 enableIpv6
          (r3, e2 ++ [Ev.utilsRouteAdd ruleTable defaultInterface hostIPs
            enableIpv4 enableIpv6 r3])
      else
        let r3 := env.utilsRouteAdd (h ++ e1) ruleTable defaultInterface hostIPs
          enableIpv4 enableIpv6
        (r3, e1 ++ [Ev.utilsRouteAdd ruleTable defaultInterface hostIPs
          enableIpv4 enableIpv6 r3])

/-! ## parseConfig -/

/-- The `ip_conflict` block of `parseConfig`: validate it and parse its interval. -/
def parseIPConflict (env : Env) : Option IPConflict → Except Err (Option IPConflict)
  | none => .ok none
  | some c =>
    let c1 := env.ValidateIPConflict c
    match env.ParseDuration c1.Interval with
    | some err => .error (.wrap "invalid interval %s: %v, input like: 1s,1m" err)
    | none => .ok (some c1)

/-- The function `parseConfig`. -/
def parseConfig (env : Env) (stdin : String) : Except Err PluginConf :=
  match env.jsonUnmarshal stdin with
  | .error err => .error (.wrap "[router] failed to parse network configuration: %v" err)
  | .ok conf0 =>
    match env.ParsePrevResult conf0.NetConf with
    | .error err => .error (.wrap "[router] could not parse prevResult: %v" err)
    | .ok netConf =>
      let conf1 := { conf0 with NetConf := netConf }
      match env.ValidateOverwriteMacAddress conf1.MacPrefix with
      | some err => .error err
      | none =>
        let lo := env.InitLogOptions conf1.LogOptions
        let lo1 := if lo.LogFilePath = "" then { lo with LogFilePath := RouterLogDefaultFilePath }
          else lo
        let conf2 := { conf1 with LogOptions := some lo1 }
        if conf2.OnlyOpMac then .ok conf2
        else
          match env.ValidateRoutes conf2.ServiceHijackSubnet conf2.OverlayHijackSubnet with
          | .error err => .error err
          | .ok (service, overlay) =>
            let conf3 := { conf2 with ServiceHijackSubnet := service,
                                      OverlayHijackSubnet := overlay }
            match parseIPConflict env conf3.IPConflict with
            | .error err => .error err
            | .ok ipConflict =>
              let conf4 := { conf3 with
                IPConflict := ipConflict,
                MigrateRoute := env.ValidateMigrateRouteConfig conf3.MigrateRoute }
              let conf5 := if conf4.DefaultOverlayInterface = "" then
                  { conf4 with DefaultOverlayInterface := "eth0" }
                else conf4
              let conf6 := match conf5.HostRuleTable with
                | none => { conf5 with HostRuleTable := some 500 }
                | some _ => conf5
              .ok { conf6 with RPFilter := env.ValidateRPFilterConfig conf6.RPFilter }

/-! ## cmdAdd -/

/-- The loop of `cmdAdd` over `prevResult.IPs` setting `enableIpv4`, `enableIpv6`. -/
def enableFamilies : List IPConfig → Bool × Bool → Bool × Bool
  | [], acc => acc
  | v :: rest, acc =>
    match v.Address.IP.To4 with
    | some _ => enableFamilies rest (true, acc.2)
    | none => enableFamilies rest (acc.1, true)

/-- The end of `cmdAdd`, from the second `GetChainedInterfaceIps` on: address
inspection of the default route interface, `HijackCustomSubnet`, `MigrateRoute`,
`SysctlRPFilter` and the final `PrintResult`.  Returns the outcome and all events. -/
def cmdAddHijack (env : Env) (conf : PluginConf) (preInterfaceName : String)
    (enableIpv4 enableIpv6 : Bool) (ruleTable : Int) (h : List Ev) : Outcome × List Ev :=
  let dflt := env.GetDefaultRouteInterface preInterfaceName
  let r1 := env.GetChainedInterfaceIps h dflt enableIpv4 enableIpv6
  let h1 := h ++ [Ev.GetChainedInterfaceIps dflt enableIpv4 enableIpv6 r1]
  match r1 with
  | .error err => (.ret (some err), h1)
  | .ok defaultInterfaceIPs =>
    let r2 := env.HijackCustomSubnet h1 conf.ServiceHijackSubnet conf.OverlayHijackSubnet
      conf.AdditionalHijackSubnet defaultInterfaceIPs ruleTable enableIpv4 enableIpv6
    let h2 := h1 ++ [Ev.HijackCustomSubnet conf.ServiceHijackSubnet conf.OverlayHijackSubnet
      conf.AdditionalHijackSubnet defaultInterfaceIPs ruleTable enableIpv4 enableIpv6 r2]
    match r2 with
    | some err => (.ret (some err), h2)
    | none =>
      match conf.MigrateRoute with
      | none => (.nilDeref "conf.MigrateRoute", h2)
      | some mr =>
        let r3 := env.MigrateRoute h2 dflt preInterfaceName defaultInterfaceIPs mr ruleTable
          enableIpv4 enableIpv6
        let h3 := h2 ++ [Ev.MigrateRoute dflt preInterfaceName defaultInterfaceIPs mr ruleTable
          enableIpv4 enableIpv6 r3]
        match r3 with
        | some err => (.ret (some err), h3)
        | none =>
          let r4 := env.SysctlRPFilter h3 conf.RPFilter
          let h4 := h3 ++ [Ev.SysctlRPFilter conf.RPFilter r4]
          match r4 with
          | some err => (.ret (some err), h4)
          | none =>
            let r5 := env.PrintResult h4 conf.NetConf.PrevResult conf.NetConf.CNIVersion
            (.ret r5, h4 ++ [Ev.PrintResult conf.NetConf.PrevResult conf.NetConf.CNIVersion r5])

/-- The two route installers of `cmdAdd`: `addChainedIPRoute` with the dereferenced
`conf.HostRuleTable`, then `addHostIPRoute`, then the rest of the pipeline. -/
def cmdAddRoutes (env : Env) (conf : PluginConf) (preInterfaceName : String)
    (enableIpv4 enableIpv6 : Bool) (ruleTable : Int) (chainedInterfaceIps : List String)
    (h : List Ev) : Outcome × List Ev :=
  match conf.HostRuleTable with
  | none => (.nilDeref "conf.HostRuleTable", h)
  | some hostRuleTable =>
    let h1 := h ++ [Ev.addChainedIPRoute conf.Sriov enableIpv4 enableIpv6 hostRuleTable
      conf.DefaultOverlayInterface chainedInterfaceIps]
    let c := addChainedIPRoute env h1 conf.Sriov enableIpv4 enableIpv6 hostRuleTable
      conf.DefaultOverlayInterface chainedInterfaceIps
    let h2 := h1 ++ c.2
    match c.1 with
    | some err => (.ret (some err), h2)
    | none =>
      let h3 := h2 ++ [Ev.addHostIPRoute ruleTable conf.DefaultOverlayInterface conf.Sriov
        enableIpv4 enableIpv6]
      let a := addHostIPRoute env h3 ruleTable conf.DefaultOverlayInterface conf.Sriov
        enableIpv4 enableIpv6
      let h4 := h3 ++ a.2
      match a.1 with
      | some err => (.ret (some (.wrap "failed to add route: %v" err)), h4)
      | none => cmdAddHijack env conf preInterfaceName enableIpv4 enableIpv6 ruleTable h4

/-- The routing part of `cmdAdd`, from the computation of `enableIpv4` and
`enableIpv6` on: address inspection, `GetRuleNumber`, `AddStaticNeighTable`,
`EnableIpv6Sysctl`, then the route installers. -/
def cmdAddRouting (env : Env) (conf : PluginConf) (prevResult : Result)
    (preInterfaceName : String) (h : List Ev) : Outcome × List Ev :=
  let enableIpv4 := (enableFamilies prevResult.IPs (false, false)).1
  let enableIpv6 := (enableFamilies prevResult.IPs (false, false)).2
  let r1 := env.GetChainedInterfaceIps h preInterfaceName enableIpv4 enableIpv6
  let h1 := h ++ [Ev.GetChainedInterfaceIps preInterfaceName enableIpv4 enableIpv6 r1]
  match r1 with
  | .error err => (.ret (some err), h1)
  | .ok chainedInterfaceIps =>
    let ruleTable := env.GetRuleNumber preInterfaceName
    let h2 := h1 ++ [Ev.GetRuleNumber preInterfaceName ruleTable]
    if ruleTable < 0 then
      (.ret (some (.new "failed to get the number of rule table for interface %s")), h2)
    else
      let r3 := env.AddStaticNeighTable h2 conf.Sriov enableIpv4 enableIpv6
        conf.DefaultOverlayInterface chainedInterfaceIps
      let h3 := h2 ++ [Ev.AddStaticNeighTable conf.Sriov enableIpv4 enableIpv6
        conf.DefaultOverlayInterface chainedInterfaceIps r3]
      match r3 with
      | some err => (.ret (some err), h3)
      | none =>
        if enableIpv6 then
          let r4 := env.EnableIpv6Sysctl h3
          let h4 := h3 ++ [Ev.EnableIpv6Sysctl r4]
          match r4 with
          | some err => (.ret (some err), h4)
          | none => cmdAddRoutes env conf preInterfaceName enableIpv4 enableIpv6 ruleTable
              chainedInterfaceIps h4
        else cmdAddRoutes env conf preInterfaceName enableIpv4 enableIpv6 ruleTable
          chainedInterfaceIps h3

/-- The IP conflict check of `cmdAdd`, run when `conf.IPConflict` is non-nil and
enabled.  Returns its error and all events. -/
def ipConflictStep (env : Env) (args : CmdArgs) (conf : PluginConf) (prevResult : Result)
    (h : List Ev) : Option Err × List Ev :=
  match conf.IPConflict with
  | some ic =>
    if ic.Enabled then
      (env.DoIPConflictChecking h args.IfName prevResult.IPs ic,
       h ++ [Ev.DoIPConflictChecking args.IfName prevResult.IPs
         (env.DoIPConflictChecking h args.IfName prevResult.IPs ic)])
    else (none, h)
  | none => (none, h)

/-- The part of `cmdAdd` that runs with the namespace open: the IP conflict check,
the MAC rewrite with its `OnlyOpMac` exit, then the routing part. -/
def cmdAddInNetns (env : Env) (args : CmdArgs) (conf : PluginConf) (prevResult : Result)
    (preInterfaceName : String) (h : List Ev) : Outcome × List Ev :=
  match ipConflictStep env args conf prevResult h with
  | (some err, h1) => (.ret (some err), h1)
  | (none, h1) =>
    if conf.MacPrefix.length ≠ 0 then
      let r2 := env.OverwriteMacAddress h1 conf.MacPrefix args.IfName
      let h2 := h1 ++ [Ev.OverwriteMacAddress conf.MacPrefix args.IfName r2]
      match r2 with
      | .error _ =>
        (.ret (some (.new "failed to update mac address, maybe mac_prefix is invalid: %v")), h2)
      | .ok _ =>
        if conf.OnlyOpMac then
          let r3 := env.PrintResult h2 conf.NetConf.PrevResult conf.NetConf.CNIVersion
          (.ret r3, h2 ++ [Ev.PrintResult conf.NetConf.PrevResult conf.NetConf.CNIVersion r3])
        else cmdAddRouting env conf prevResult preInterfaceName h2
    else cmdAddRouting env conf prevResult preInterfaceName h1

/-- The function `cmdAdd`: its outcome and the events of the invocation. -/
def cmdAdd (env : Env) (args : CmdArgs) : Outcome × List Ev :=
  match parseConfig env args.StdinData with
  | .error err => (.ret (some err), [])
  | .ok conf =>
    match env.SetLogOptions conf.LogOptions with
    | some err => (.ret (some (.wrap "faild to init logger: %v " err)), [])
    | none =>
      match env.LoadArgs args.Args with
      | some err => (.ret (some (.wrap "failed to get pod information, error=%+v" err)), [])
      | none =>
        if conf.Skipped then
          let r := env.PrintResult [] conf.NetConf.PrevResult conf.NetConf.CNIVersion
          (.ret r, [Ev.PrintResult conf.NetConf.PrevResult conf.NetConf.CNIVersion r])
        else
          match conf.NetConf.PrevResult with
          | none =>
            (.ret (some (.new "failed to find PrevResult, must be called as chained plugin")), [])
          | some prev =>
            match env.GetResult prev with
            | .error err => (.ret (some (.wrap "failed to convert prevResult: %v" err)), [])
            | .ok prevResult =>
              match prevResult.Interfaces with
              | [] => (.ret (some (.new "failed to find interface from prevResult")), [])
              | itf :: _ =>
                let preInterfaceName := itf.Name
                if preInterfaceName.length = 0 then
                  (.ret (some (.new "failed to find interface name from prevResult")), [])
                else
                  let r := env.GetNS [] args.Netns
                  let h := [Ev.GetNS args.Netns r]
                  match r with
                  | some err => (.ret (some (.wrap "failed to open netns %q: %v" err)), h)
                  | none =>
                    let b := cmdAddInNetns env args conf prevResult preInterfaceName h
                    (b.1, b.2 ++ [Ev.Close])

/-! ## cmdDel -/

/-- The function `cmdDel`: its outcome and the events of the invocation.  When
`GetChainedInterfaceIps` fails the address list is the nil slice. -/
def cmdDel (env : Env) (args : CmdArgs) : Outcome × List Ev :=
  match parseConfig env args.StdinData with
  | .error err => (.ret (some err), [])
  | .ok conf =>
    match env.SetLogOptions conf.LogOptions with
    | some err => (.ret (some (.wrap "faild to init logger: %v " err)), [])
    | none =>
      match env.LoadArgs args.Args with
      | some err => (.ret (some (.wrap "failed to get pod information, error=%+v" err)), [])
      | none =>
        let r := env.GetNS [] args.Netns
        let h := [Ev.GetNS args.Netns r]
        match r with
        | some err =>
          if isNSPathNotExistErr err then (.ret none, h)
          else (.ret (some (.wrap "failed to open netns %q: %v" err)), h)
        | none =>
          let r1 := env.GetChainedInterfaceIps h args.IfName true true
          let h1 := h ++ [Ev.GetChainedInterfaceIps args.IfName true true r1]
          let chainedInterfaceIps := match r1 with
            | .ok ips => ips
            | .error _ => []
          match conf.HostRuleTable with
          | none => (.nilDeref "conf.HostRuleTable", h1 ++ [Ev.Close])
          | some hostRuleTable =>
            let r2 := env.RuleDel h1 hostRuleTable chainedInterfaceIps
            (.ret r2, h1 ++ [Ev.RuleDel hostRuleTable chainedInterfaceIps r2, Ev.Close])

/-! ## A concrete environment -/

/-- An IPv4 address from its four bytes. -/
def addr4 (a b c d : Nat) : IP := ⟨true, ((a * 256 + b) * 256 + c) * 256 + d⟩

/-- What `net.ParseCIDR` returns for the IPv4 text `a.b.c.d/ones`. -/
def cidr4 (a b c d ones : Nat) : IP × IPNet :=
  (addr4 a b c d,
   { IP := ⟨true, (addr4 a b c d).val / 2 ^ (32 - ones) * 2 ^ (32 - ones)⟩,
     Mask := CIDRMask ones 32 })

/-- What `net.ParseCIDR` returns for an IPv6 text with address value `v`. -/
def cidr6 (v ones : Nat) : IP × IPNet :=
  (⟨false, v⟩,
   { IP := ⟨false, v / 2 ^ (128 - ones) * 2 ^ (128 - ones)⟩, Mask := CIDRMask ones 128 })

/-- The value of the IPv6 address `fd00::n`. -/
def fd00 (n : Nat) : Nat := 0xfd00 * 2 ^ 112 + n

/-- The answers of `net.ParseCIDR` on the texts used below; any other text is taken
as malformed. -/
def demoParseCIDR (s : String) : Except Err (IP × IPNet) :=
  if s = "10.0.0.5/24" then .ok (cidr4 10 0 0 5 24)
  else if s = "10.0.0.1/24" then .ok (cidr4 10 0 0 1 24)
  else if s = "10.0.0.2/24" then .ok (cidr4 10 0 0 2 24)
  else if s = "192.168.1.9/24" then .ok (cidr4 192 168 1 9 24)
  else if s = "172.16.0.3/16" then .ok (cidr4 172 16 0 3 16)
  else if s = "fd00::5/64" then .ok (cidr6 (fd00 5) 64)
  else if s = "fd00::1/64" then .ok (cidr6 (fd00 1) 64)
  else .error (.other 1)

/-- An environment in which the decoded configuration is `conf`, the validators
keep what they are given, every namespace and kernel operation succeeds, the
chained interface `net1` holds `10.0.0.5/24`, the host holds `10.0.0.1/24`, and the
overlay interface has parent index 7. -/
def demoEnv (conf : PluginConf) : Env where
  jsonUnmarshal := fun _ => .ok conf
  ParsePrevResult := fun nc => .ok nc
  ValidateOverwriteMacAddress := fun _ => none
  InitLogOptions := fun lo => lo.getD ⟨"info", ""⟩
  ValidateRoutes := fun a b => .ok (a, b)
  ValidateIPConflict := fun c => c
  ParseDuration := fun _ => none
  ValidateMigrateRouteConfig := fun m => some (m.getD ⟨-1⟩)
  ValidateRPFilterConfig := fun r => some (r.getD ⟨some true, some 2⟩)
  SetLogOptions := fun _ => none
  LoadArgs := fun _ => none
  GetResult := fun r => .ok r
  ParseCIDR := demoParseCIDR
  GetDefaultRouteInterface := fun _ => "eth0"
  GetRuleNumber := fun _ => 101
  PrintResult := fun _ _ _ => none
  GetNS := fun _ _ => none
  DoIPConflictChecking := fun _ _ _ _ => none
  OverwriteMacAddress := fun _ _ _ => .ok "0a:1b:0a:00:00:05"
  GetChainedInterfaceIps := fun _ name _ _ =>
    if name = "net1" then .ok ["10.0.0.5/24"] else .ok ["172.16.0.3/16"]
  AddStaticNeighTable := fun _ _ _ _ _ _ => none
  EnableIpv6Sysctl := fun _ => none
  LinkByName := fun _ name => .ok ⟨name, 7⟩
  LinkByIndex := fun _ _ => .ok ⟨"cali0", 0⟩
  GetHostIps := fun _ _ _ => .ok ["10.0.0.1/24"]
  RuleAdd := fun _ _ => none
  RouteAdd := fun _ _ => none
  utilsRouteAdd := fun _ _ _ _ _ _ => none
  HijackCustomSubnet := fun _ _ _ _ _ _ _ _ => none
  MigrateRoute := fun _ _ _ _ _ _ _ _ => none
  SysctlRPFilter := fun _ _ => none
  RuleDel := fun _ _ _ => none

/-- A previous result with interface `net1` and address `10.0.0.5/24`. -/
def demoPrev : Result :=
  { Interfaces := [⟨"net1"⟩], IPs := [⟨⟨addr4 10 0 0 5, CIDRMask 24 32⟩⟩] }

/-- A minimal decoded configuration: only the previous result is present. -/
def demoConf : PluginConf :=
  { NetConf := { CNIVersion := "0.4.0", PrevResult := some demoPrev },
    OverlayHijackSubnet := [], ServiceHijackSubnet := ["10.96.0.0/12"],
    AdditionalHijackSubnet := [], MigrateRoute := none, DefaultOverlayInterface := "",
    HostRuleTable := none, RPFilter := none, Skipped := false, Sriov := false,
    OnlyOpMac := false, LogOptions := none, IPConflict := none, MacPrefix := "" }

/-- The arguments of an invocation for interface `net1`. -/
def demoArgs : CmdArgs :=
  { ContainerID := "c0", Netns := "/var/run/netns/pod", IfName := "net1",
    Args := "K8S_POD_NAME=p", StdinData := "" }

/-! ## Vocabulary of the statements -/

/-- An add whose answer makes `addChainedIPRoute` return: an error that is not
classified as already existing. -/
def Ev.installFailure : Ev → Bool
  | .RuleAdd _ res => (addFailed res).isSome
  | .RouteAdd _ res => (addFailed res).isSome
  | _ => false

/-- A loop failure that comes from a rule add or a route add. -/
def LoopErr.isInstall : LoopErr → Bool
  | .parse _ => false
  | .rule _ => true
  | .route _ => true

/-- A kernel operation of the host route installer, without its answer. -/
inductive KOp where
  | rule (r : Rule)
  | route (r : Route)
deriving DecidableEq, Repr

/-- The kernel operation an event stands for, if it is a rule add or route add. -/
def Ev.kernelOp : Ev → Option KOp
  | .RuleAdd r _ => some (.rule r)
  | .RouteAdd r _ => some (.route r)
  | _ => none

/-- Whether some host address lies inside the prefix `ipNet`. -/
def hostInside (env : Env) (ipNet : IPNet) (hostIPs : List String) : Bool :=
  hostIPs.any (fun s =>
    match env.ParseCIDR s with
    | .ok (ip, _) => ipNet.Contains ip
    | .error _ => false)

/-- The destination the specification asks for: the chained address itself, under
a mask of exactly /32 for an IPv4 address and /128 for an IPv6 address. -/
def specDst (netIP : IP) : IPNet :=
  { IP := netIP, Mask := if netIP.is4 then ⟨32, 32⟩ else ⟨128, 128⟩ }

/-- The family of the chained address. -/
def specFamily (netIP : IP) : Family :=
  if netIP.is4 then Family.FAMILY_V4 else Family.FAMILY_V6

/-- The installation the specification describes: for each chained address, in
order, that has a host address inside its prefix, one rule for the address itself in
the host table, followed by one link scope route for it through the parent link;
nothing for the other chained addresses. -/
def expectedInstall (env : Env) (hostRuleTable parentIndex : Int) (hostIPs : List String) :
    List String → List KOp
  | [] => []
  | chainedIP :: rest =>
    match env.ParseCIDR chainedIP with
    | .ok (netIP, ipNet) =>
      (if hostInside env ipNet hostIPs then
        [KOp.rule { Table := hostRuleTable, Family := specFamily netIP, Dst := specDst netIP },
         KOp.route { LinkIndex := parentIndex, Dst := specDst netIP,
                     Scope := Scope.SCOPE_LINK, Table := hostRuleTable }]
       else []) ++ expectedInstall env hostRuleTable parentIndex hostIPs rest
    | .error _ => expectedInstall env hostRuleTable parentIndex hostIPs rest

/-- The event of a kernel operation that succeeded. -/
def KOp.succeeded : KOp → Ev
  | .rule r => Ev.RuleAdd r none
  | .route r => Ev.RouteAdd r none

/-- Every text of the list is accepted by `net.ParseCIDR`. -/
def wellFormed (env : Env) (l : List String) : Prop :=
  ∀ s ∈ l, ∃ p, env.ParseCIDR s = .ok p

/-- A kernel operation is for an IPv6 destination: a rule of family `FAMILY_V6`, or
a route whose destination address is not IPv4. -/
def KOp.isV6 : KOp → Bool
  | .rule r => r.Family = Family.FAMILY_V6 || !r.Dst.IP.is4
  | .route r => !r.Dst.IP.is4

/-- A kernel operation is for an IPv4 destination. -/
def KOp.isV4 : KOp → Bool
  | .rule r => r.Family = Family.FAMILY_V4 || r.Dst.IP.is4
  | .route r => r.Dst.IP.is4

/-- The events of `addChainedIPRoute` before its loop when the overlay interface,
its parent link and the host addresses all resolve. -/
def resolvedPrologue (overlay : String) (link peer : LinkAttrs) (hostIPs : List String) :
    List Ev :=
  [Ev.LinkByName overlay (.ok link), Ev.LinkByIndex link.ParentIndex (.ok peer),
   Ev.GetHostIps true true (.ok hostIPs)]

/-- The destination of a kernel operation. -/
def KOp.dst : KOp → IPNet
  | .rule r => r.Dst
  | .route r => r.Dst

/-- The demo environment with a kernel in which every rule and route is already
installed: each add answers "already exists". -/
def existEnv : Env :=
  { demoEnv demoConf with
    RuleAdd := fun _ _ => some Err.eexist
    RouteAdd := fun _ _ => some Err.eexist }

/-- The demo environment with IPv6 addresses: the host holds `fd00::1/64`. -/
def v6HostEnv : Env :=
  { demoEnv demoConf with GetHostIps := fun _ _ _ => .ok ["fd00::1/64"] }

/-- The demo environment in which the overlay interface has no parent link
(`ParentIndex` 0) and `LinkByIndex` finds no link with index 0. -/
def noParentEnv : Env :=
  { demoEnv demoConf with
    LinkByName := fun _ name => .ok ⟨name, 0⟩
    LinkByIndex := fun _ i => if i = 0 then .error (Err.other 22) else .ok ⟨"cali0", 0⟩ }

/-- As `noParentEnv`, but `LinkByIndex` answers for index 0. -/
def noParentEnv2 : Env :=
  { demoEnv demoConf with LinkByName := fun _ name => .ok ⟨name, 0⟩ }

/-- The demo environment in which a route add into the main table is refused. -/
def mainFailEnv : Env :=
  { demoEnv demoConf with
    utilsRouteAdd := fun _ t _ _ _ _ => if t = RT_TABLE_MAIN then some (Err.other 13) else none }

/-- An event of the routing part of `cmdAdd` or of `cmdDel`: address inspection,
table allocation, the neighbor, sysctl, host route, pod route, hijack and migrate
steps, and rule deletion. -/
def Ev.isRouting : Ev → Bool
  | .PrintResult _ _ _ => false
  | .GetNS _ _ => false
  | .Close => false
  | .DoIPConflictChecking _ _ _ => false
  | .OverwriteMacAddress _ _ _ => false
  | _ => true

/-- The steps of the ADD pipeline. -/
inductive Step where
  | addressInspection
  | tableAllocation
  | neighborProvisioner
  | ipv6Sysctl
  | hostRouteInstaller
  | podRouteInstaller
  | subnetHijacker
  | routeMigrator
  | rpFilter
deriving DecidableEq, Repr

/-- The pipeline step an event starts: the call of `GetChainedInterfaceIps`,
`GetRuleNumber`, `AddStaticNeighTable`, `EnableIpv6Sysctl`, `addChainedIPRoute`,
`addHostIPRoute`, `HijackCustomSubnet`, `MigrateRoute` or `SysctlRPFilter`. -/
def Ev.step : Ev → Option Step
  | .GetChainedInterfaceIps _ _ _ _ => some .addressInspection
  | .GetRuleNumber _ _ => some .tableAllocation
  | .AddStaticNeighTable _ _ _ _ _ _ => some .neighborProvisioner
  | .EnableIpv6Sysctl _ => some .ipv6Sysctl
  | .addChainedIPRoute _ _ _ _ _ _ => some .hostRouteInstaller
  | .addHostIPRoute _ _ _ _ _ => some .podRouteInstaller
  | .HijackCustomSubnet _ _ _ _ _ _ _ _ => some .subnetHijacker
  | .MigrateRoute _ _ _ _ _ _ _ _ => some .routeMigrator
  | .SysctlRPFilter _ _ => some .rpFilter
  | _ => none

/-- The order of the steps in `cmdAdd`: the IPv6 sysctl step, when IPv6 is active,
comes right after the neighbor step; the default route interface is inspected after
the pod routes; the hijack step comes before the migrate step. -/
def pipelineOrder (ipv6 : Bool) : List Step :=
  [.addressInspection, .tableAllocation, .neighborProvisioner] ++
    (if ipv6 then [.ipv6Sysctl] else []) ++
    [.hostRouteInstaller, .podRouteInstaller, .addressInspection, .subnetHijacker,
     .routeMigrator, .rpFilter]

/-- The order of the steps as the specification words it: migrate before hijack,
the sysctl steps last. -/
def claimedOrder (ipv6 : Bool) : List Step :=
  [.addressInspection, .tableAllocation, .neighborProvisioner, .hostRouteInstaller,
   .podRouteInstaller, .routeMigrator, .subnetHijacker] ++
    (if ipv6 then [.ipv6Sysctl] else []) ++ [.rpFilter]

/-- The configuration `demoConf` as `parseConfig` returns it in the demo
environment: defaults filled in. -/
def demoParsed : PluginConf :=
  { demoConf with
    LogOptions := some ⟨"info", RouterLogDefaultFilePath⟩
    MigrateRoute := some ⟨-1⟩
    DefaultOverlayInterface := "eth0"
    HostRuleTable := some 500
    RPFilter := some ⟨some true, some 2⟩ }

/-- A decoded configuration with `skip_call` set. -/
def skipConf : PluginConf := { demoConf with Skipped := true }

/-- The configuration `skipConf` as `parseConfig` returns it. -/
def skipParsed : PluginConf := { demoParsed with Skipped := true }

/-- The configuration `macOnlyConf` as `parseConfig` returns it: only the log
options are filled in. -/
def macOnlyParsed : PluginConf :=
  { demoConf with
    OnlyOpMac := true
    MacPrefix := "0a:1b"
    LogOptions := some ⟨"info", RouterLogDefaultFilePath⟩ }

/-- The demo environment for `skipConf` in which `types.LoadArgs` rejects the
arguments of the invocation. -/
def badArgsEnv : Env :=
  { demoEnv skipConf with LoadArgs := fun _ => some (Err.other 5) }

/-- A decoded configuration with `only_op_mac` set and a MAC prefix. -/
def macOnlyConf : PluginConf := { demoConf with OnlyOpMac := true, MacPrefix := "0a:1b" }

/-- A decoded configuration with `only_op_mac` set and no `mac_prefix`, no
`host_rule_table` and no `migrate_route`. -/
def macOnlyNoPrefixConf : PluginConf := { demoConf with OnlyOpMac := true }

/-- The demo environment for `macOnlyConf` in which the MAC rewrite fails. -/
def macFailEnv : Env :=
  { demoEnv macOnlyConf with OverwriteMacAddress := fun _ _ _ => .error (Err.other 19) }

/-- The demo environment in which the namespace path no longer exists. -/
def missingNsEnv : Env :=
  { demoEnv demoConf with GetNS := fun _ _ => some Err.nsPathNotExist }

/-- A previous result with interface `net1`, an IPv4 and an IPv6 address. -/
def dualPrev : Result :=
  { Interfaces := [⟨"net1"⟩],
    IPs := [⟨⟨addr4 10 0 0 5, CIDRMask 24 32⟩⟩, ⟨⟨⟨false, fd00 5⟩, CIDRMask 64 128⟩⟩] }

/-- The decoded configuration of a dual stack pod. -/
def dualConf : PluginConf :=
  { demoConf with NetConf := { CNIVersion := "0.4.0", PrevResult := some dualPrev } }

/-! ## The host route installer: the loop -/

theorem chainedRule_eq (tbl : Int) (netIP : IP) :
    chainedRule tbl netIP =
      { Table := tbl, Family := specFamily netIP, Dst := specDst netIP } := by
  cases netIP with
  | mk is4 val => cases is4 <;> rfl

theorem chainedRoute_eq (tbl pidx : Int) (netIP : IP) :
    chainedRoute tbl pidx netIP =
      { LinkIndex := pidx, Dst := specDst netIP, Scope := Scope.SCOPE_LINK, Table := tbl } := by
  cases netIP with
  | mk is4 val => cases is4 <;> rfl

theorem installChained_failure_iff (env : Env) (tbl pidx : Int) (netIP : IP) (h : List Ev) :
    (∃ e, (installChained env tbl pidx netIP h).1 = some e ∧ e.isInstall = true) ↔
      ∃ ev ∈ (installChained env tbl pidx netIP h).2, ev.installFailure = true := by
  unfold installChained
  cases h1 : addFailed (env.RuleAdd h (chainedRule tbl netIP)) with
  | some e => simp [h1, Ev.installFailure, LoopErr.isInstall]
  | none =>
    cases h2 : addFailed (env.RouteAdd (h ++ [Ev.RuleAdd (chainedRule tbl netIP)
        (env.RuleAdd h (chainedRule tbl netIP))]) (chainedRoute tbl pidx netIP)) with
    | some e => simp [h1, h2, Ev.installFailure, LoopErr.isInstall]
    | none => simp [h1, h2, Ev.installFailure, LoopErr.isInstall]

theorem installChained_not_parse (env : Env) (tbl pidx : Int) (netIP : IP) (h : List Ev)
    (e : Err) : (installChained env tbl pidx netIP h).1 ≠ some (.parse e) := by
  unfold installChained
  cases h1 : addFailed (env.RuleAdd h (chainedRule tbl netIP)) with
  | some e1 => simp [h1]
  | none =>
    cases h2 : addFailed (env.RouteAdd (h ++ [Ev.RuleAdd (chainedRule tbl netIP)
        (env.RuleAdd h (chainedRule tbl netIP))]) (chainedRoute tbl pidx netIP)) with
    | some e2 => simp [h1, h2]
    | none => simp [h1, h2]

theorem installChained_ops (env : Env) (tbl pidx : Int) (netIP : IP) (h : List Ev)
    (hno : ∀ ev ∈ (installChained env tbl pidx netIP h).2, ev.installFailure = false) :
    (installChained env tbl pidx netIP h).1 = none ∧
      (installChained env tbl pidx netIP h).2.filterMap Ev.kernelOp =
        [KOp.rule (chainedRule tbl netIP), KOp.route (chainedRoute tbl pidx netIP)] := by
  unfold installChained at hno ⊢
  cases h1 : addFailed (env.RuleAdd h (chainedRule tbl netIP)) with
  | some e =>
    simp [h1, Ev.installFailure] at hno
  | none =>
    cases h2 : addFailed (env.RouteAdd (h ++ [Ev.RuleAdd (chainedRule tbl netIP)
        (env.RuleAdd h (chainedRule tbl netIP))]) (chainedRoute tbl pidx netIP)) with
    | some e => simp [h1, h2, Ev.installFailure] at hno
    | none => simp [h1, h2, Ev.kernelOp]

theorem installChained_events (env : Env) (tbl pidx : Int) (netIP : IP) (h : List Ev) :
    ∀ ev ∈ (installChained env tbl pidx netIP h).2,
      (∃ a, ev = Ev.RuleAdd (chainedRule tbl netIP) a) ∨
      (∃ a, ev = Ev.RouteAdd (chainedRoute tbl pidx netIP) a) := by
  unfold installChained
  cases h1 : addFailed (env.RuleAdd h (chainedRule tbl netIP)) with
  | some e => simp [h1]
  | none =>
    cases h2 : addFailed (env.RouteAdd (h ++ [Ev.RuleAdd (chainedRule tbl netIP)
        (env.RuleAdd h (chainedRule tbl netIP))]) (chainedRoute tbl pidx netIP)) with
    | some e => simp [h1, h2]
    | none => simp [h1, h2]

theorem hostIPLoop_cases (env : Env) (tbl pidx : Int) (netIP : IP) (ipNet : IPNet)
    (h : List Ev) (hosts : List String) :
    (hostIPLoop env tbl pidx netIP ipNet h hosts = (none, []) ∧
        hostInside env ipNet hosts = false) ∨
    (∃ e s, s ∈ hosts ∧ env.ParseCIDR s = .error e ∧
        hostIPLoop env tbl pidx netIP ipNet h hosts = (some (.parse e), [])) ∨
    (hostIPLoop env tbl pidx netIP ipNet h hosts = installChained env tbl pidx netIP h ∧
        hostInside env ipNet hosts = true) := by
  induction hosts with
  | nil => left; simp [hostIPLoop, hostInside]
  | cons s rest ih =>
    cases hp : env.ParseCIDR s with
    | error e =>
      right; left
      exact ⟨e, s, List.mem_cons_self _ _, hp, by simp [hostIPLoop, hp]⟩
    | ok p =>
      obtain ⟨ip, n⟩ := p
      cases hc : ipNet.Contains ip with
      | true =>
        right; right
        simp [hostIPLoop, hp, hc, hostInside]
      | false =>
        rcases ih with ⟨h1, h2⟩ | ⟨e, s1, hs1, he, h1⟩ | ⟨h1, h2⟩
        · left
          simp only [hostInside] at h2
          simp [hostIPLoop, hp, hc, hostInside, h1, h2]
        · right; left
          exact ⟨e, s1, List.mem_cons_of_mem _ hs1, he, by simp [hostIPLoop, hp, hc, h1]⟩
        · right; right
          simp only [hostInside] at h2
          simp [hostIPLoop, hp, hc, hostInside, h1, h2]

theorem hostIPLoop_failure_iff (env : Env) (tbl pidx : Int) (netIP : IP) (ipNet : IPNet)
    (h : List Ev) (hosts : List String) :
    (∃ e, (hostIPLoop env tbl pidx netIP ipNet h hosts).1 = some e ∧ e.isInstall = true) ↔
      ∃ ev ∈ (hostIPLoop env tbl pidx netIP ipNet h hosts).2, ev.installFailure = true := by
  rcases hostIPLoop_cases env tbl pidx netIP ipNet h hosts with
    ⟨h1, _⟩ | ⟨e, s, _, _, h1⟩ | ⟨h1, _⟩
  · simp [h1]
  · simp [h1, LoopErr.isInstall]
  · rw [h1]; exact installChained_failure_iff env tbl pidx netIP h

theorem hostIPLoop_parse (env : Env) (tbl pidx : Int) (netIP : IP) (ipNet : IPNet)
    (h : List Ev) (hosts : List String) (e : Err)
    (hr : (hostIPLoop env tbl pidx netIP ipNet h hosts).1 = some (.parse e)) :
    (∃ s ∈ hosts, env.ParseCIDR s = .error e) ∧
      (hostIPLoop env tbl pidx netIP ipNet h hosts).2 = [] := by
  rcases hostIPLoop_cases env tbl pidx netIP ipNet h hosts with
    ⟨h1, _⟩ | ⟨e1, s, hs, he, h1⟩ | ⟨h1, _⟩
  · simp [h1] at hr
  · rw [h1] at hr ⊢
    simp only [Option.some.injEq, LoopErr.parse.injEq] at hr
    subst hr
    exact ⟨⟨s, hs, he⟩, rfl⟩
  · rw [h1] at hr
    exact absurd hr (installChained_not_parse env tbl pidx netIP h e)

theorem hostIPLoop_events (env : Env) (tbl pidx : Int) (netIP : IP) (ipNet : IPNet)
    (h : List Ev) (hosts : List String) :
    ∀ ev ∈ (hostIPLoop env tbl pidx netIP ipNet h hosts).2,
      (∃ a, ev = Ev.RuleAdd (chainedRule tbl netIP) a) ∨
      (∃ a, ev = Ev.RouteAdd (chainedRoute tbl pidx netIP) a) := by
  rcases hostIPLoop_cases env tbl pidx netIP ipNet h hosts with
    ⟨h1, _⟩ | ⟨e, s, _, _, h1⟩ | ⟨h1, _⟩
  · simp [h1]
  · simp [h1]
  · rw [h1]; exact installChained_events env tbl pidx netIP h

theorem hostInside_of_wellFormed (env : Env) (tbl pidx : Int) (netIP : IP) (ipNet : IPNet)
    (h : List Ev) (hosts : List String) (hwf : wellFormed env hosts) :
    hostIPLoop env tbl pidx netIP ipNet h hosts =
      if hostInside env ipNet hosts then installChained env tbl pidx netIP h else (none, []) := by
  rcases hostIPLoop_cases env tbl pidx netIP ipNet h hosts with
    ⟨h1, h2⟩ | ⟨e, s, hs, he, _⟩ | ⟨h1, h2⟩
  · simp [h1, h2]
  · obtain ⟨p, hp⟩ := hwf s hs
    rw [hp] at he
    cases he
  · simp [h1, h2]

/-- The operations of the loop when no add fails for good: they are the ones of the
specification, whatever the adds answered. -/
theorem chainedIPLoop_ops (env : Env) (tbl pidx : Int) (hostIPs : List String)
    (hwfh : wellFormed env hostIPs) (chainedIPs : List String) :
    ∀ h : List Ev, wellFormed env chainedIPs →
      (∀ ev ∈ (chainedIPLoop env tbl pidx hostIPs h chainedIPs).2, ev.installFailure = false) →
      (chainedIPLoop env tbl pidx hostIPs h chainedIPs).1 = none ∧
      (chainedIPLoop env tbl pidx hostIPs h chainedIPs).2.filterMap Ev.kernelOp =
        expectedInstall env tbl pidx hostIPs chainedIPs := by
  induction chainedIPs with
  | nil => intro h _ _; simp [chainedIPLoop, expectedInstall]
  | cons c rest ih =>
    intro h hwfc hno
    obtain ⟨p, hp⟩ := hwfc c (List.mem_cons_self _ _)
    obtain ⟨netIP, ipNet⟩ := p
    have hwfr : wellFormed env rest := fun s hs => hwfc s (List.mem_cons_of_mem _ hs)
    have hloop := hostInside_of_wellFormed env tbl pidx netIP ipNet h hostIPs hwfh
    cases hin : hostInside env ipNet hostIPs with
    | false =>
      rw [hin] at hloop
      simp only [Bool.false_eq_true, if_false] at hloop
      simp only [chainedIPLoop, hp, hloop, List.append_nil, List.nil_append] at hno ⊢
      have := ih h hwfr hno
      simp [expectedInstall, hp, hin, this.1, this.2]
    | true =>
      rw [hin] at hloop
      simp only [if_true] at hloop
      cases hi : installChained env tbl pidx netIP h with
      | mk r1 e1 =>
        have hno1 : ∀ ev ∈ (installChained env tbl pidx netIP h).2,
            ev.installFailure = false := by
          intro ev hev
          apply hno
          rw [hi] at hev
          cases r1 with
          | none => simp [chainedIPLoop, hp, hloop, hi]; left; exact hev
          | some err => simp [chainedIPLoop, hp, hloop, hi]; exact hev
        have hops := installChained_ops env tbl pidx netIP h hno1
        rw [hi] at hops
        simp only at hops
        obtain ⟨hr1, hops2⟩ := hops
        subst hr1
        have hno2 : ∀ ev ∈ (chainedIPLoop env tbl pidx hostIPs (h ++ e1) rest).2,
            ev.installFailure = false := by
          intro ev hev
          apply hno
          simp [chainedIPLoop, hp, hloop, hi]; right; exact hev
        have := ih (h ++ e1) hwfr hno2
        simp [chainedIPLoop, hp, hloop, hi, expectedInstall, hin, this.1, this.2, hops2,
          chainedRule_eq, chainedRoute_eq]

theorem chainedIPLoop_failure_iff (env : Env) (tbl pidx : Int) (hostIPs : List String)
    (chainedIPs : List String) :
    ∀ h : List Ev,
      ((∃ e, (chainedIPLoop env tbl pidx hostIPs h chainedIPs).1 = some e ∧
          e.isInstall = true) ↔
        ∃ ev ∈ (chainedIPLoop env tbl pidx hostIPs h chainedIPs).2,
          ev.installFailure = true) := by
  induction chainedIPs with
  | nil => intro h; simp [chainedIPLoop]
  | cons c rest ih =>
    intro h
    cases hp : env.ParseCIDR c with
    | error e => simp [chainedIPLoop, hp, LoopErr.isInstall]
    | ok p =>
      obtain ⟨netIP, ipNet⟩ := p
      have hh := hostIPLoop_failure_iff env tbl pidx netIP ipNet h hostIPs
      cases hl : hostIPLoop env tbl pidx netIP ipNet h hostIPs with
      | mk r1 e1 =>
        rw [hl] at hh
        cases r1 with
        | some err => simpa [chainedIPLoop, hp, hl] using hh
        | none =>
          have hnone : ¬ ∃ ev ∈ e1, ev.installFailure = true := by
            intro hex
            have := hh.2 hex
            simp at this
          have := ih (h ++ e1)
          simp only [chainedIPLoop, hp, hl, List.mem_append]
          constructor
          · intro hx
            obtain ⟨ev, hev, hf⟩ := this.1 hx
            exact ⟨ev, Or.inr hev, hf⟩
          · rintro ⟨ev, hev | hev, hf⟩
            · exact absurd ⟨ev, hev, hf⟩ hnone
            · exact this.2 ⟨ev, hev, hf⟩

theorem chainedIPLoop_parse (env : Env) (tbl pidx : Int) (hostIPs : List String)
    (chainedIPs : List String) (e : Err) :
    ∀ h : List Ev, (chainedIPLoop env tbl pidx hostIPs h chainedIPs).1 = some (.parse e) →
      ∃ s ∈ chainedIPs ++ hostIPs, env.ParseCIDR s = .error e := by
  induction chainedIPs with
  | nil => intro h hr; simp [chainedIPLoop] at hr
  | cons c rest ih =>
    intro h hr
    cases hp : env.ParseCIDR c with
    | error e1 =>
      simp only [chainedIPLoop, hp, Option.some.injEq, LoopErr.parse.injEq] at hr
      subst hr
      exact ⟨c, by simp, hp⟩
    | ok p =>
      obtain ⟨netIP, ipNet⟩ := p
      cases hl : hostIPLoop env tbl pidx netIP ipNet h hostIPs with
      | mk r1 e1 =>
        cases r1 with
        | some err =>
          simp only [chainedIPLoop, hp, hl] at hr
          have := hostIPLoop_parse env tbl pidx netIP ipNet h hostIPs e (by rw [hl]; exact hr)
          obtain ⟨⟨s, hs, he⟩, _⟩ := this
          exact ⟨s, by simp [hs], he⟩
        | none =>
          simp only [chainedIPLoop, hp, hl] at hr
          obtain ⟨s, hs, he⟩ := ih (h ++ e1) hr
          refine ⟨s, ?_, he⟩
          simp only [List.mem_append, List.mem_cons] at hs ⊢
          rcases hs with hs | hs
          · exact Or.inl (Or.inr hs)
          · exact Or.inr hs

/-- Every event of the loop is the rule add or the route add for a chained
address of the list. -/
theorem chainedIPLoop_events (env : Env) (tbl pidx : Int) (hostIPs : List String)
    (chainedIPs : List String) :
    ∀ h : List Ev, ∀ ev ∈ (chainedIPLoop env tbl pidx hostIPs h chainedIPs).2,
      ∃ c ∈ chainedIPs, ∃ netIP ipNet, env.ParseCIDR c = .ok (netIP, ipNet) ∧
        ((∃ a, ev = Ev.RuleAdd (chainedRule tbl netIP) a) ∨
         (∃ a, ev = Ev.RouteAdd (chainedRoute tbl pidx netIP) a)) := by
  induction chainedIPs with
  | nil => intro h ev hev; simp [chainedIPLoop] at hev
  | cons c rest ih =>
    intro h ev hev
    cases hp : env.ParseCIDR c with
    | error e => simp [chainedIPLoop, hp] at hev
    | ok p =>
      obtain ⟨netIP, ipNet⟩ := p
      have hh := hostIPLoop_events env tbl pidx netIP ipNet h hostIPs
      cases hl : hostIPLoop env tbl pidx netIP ipNet h hostIPs with
      | mk r1 e1 =>
        rw [hl] at hh
        have hfirst : ev ∈ e1 → ∃ c1 ∈ c :: rest, ∃ netIP ipNet,
            env.ParseCIDR c1 = .ok (netIP, ipNet) ∧
            ((∃ a, ev = Ev.RuleAdd (chainedRule tbl netIP) a) ∨
             (∃ a, ev = Ev.RouteAdd (chainedRoute tbl pidx netIP) a)) :=
          fun h1 => ⟨c, List.mem_cons_self _ _, netIP, ipNet, hp, hh ev h1⟩
        cases r1 with
        | some err =>
          simp only [chainedIPLoop, hp, hl] at hev
          exact hfirst hev
        | none =>
          simp only [chainedIPLoop, hp, hl, List.mem_append] at hev
          rcases hev with hev | hev
          · exact hfirst hev
          · obtain ⟨c1, hc1, n1, i1, hp1, hx⟩ := ih (h ++ e1) ev hev
            exact ⟨c1, List.mem_cons_of_mem _ hc1, n1, i1, hp1, hx⟩

/-- When every add succeeds and the addresses are well formed, the loop returns nil
and its events are the operations of the specification, each answered nil. -/
theorem chainedIPLoop_success (env : Env) (tbl pidx : Int) (hostIPs : List String)
    (hwfh : wellFormed env hostIPs)
    (hrule : ∀ h r, env.RuleAdd h r = none) (hroute : ∀ h r, env.RouteAdd h r = none)
    (chainedIPs : List String) :
    ∀ h : List Ev, wellFormed env chainedIPs →
      chainedIPLoop env tbl pidx hostIPs h chainedIPs =
        (none, (expectedInstall env tbl pidx hostIPs chainedIPs).map KOp.succeeded) := by
  induction chainedIPs with
  | nil => intro h _; simp [chainedIPLoop, expectedInstall]
  | cons c rest ih =>
    intro h hwfc
    obtain ⟨p, hp⟩ := hwfc c (List.mem_cons_self _ _)
    obtain ⟨netIP, ipNet⟩ := p
    have hwfr : wellFormed env rest := fun s hs => hwfc s (List.mem_cons_of_mem _ hs)
    have hloop := hostInside_of_wellFormed env tbl pidx netIP ipNet h hostIPs hwfh
    have hi : installChained env tbl pidx netIP h =
        (none, [Ev.RuleAdd (chainedRule tbl netIP) none,
                Ev.RouteAdd (chainedRoute tbl pidx netIP) none]) := by
      simp [installChained, hrule, hroute, addFailed]
    cases hin : hostInside env ipNet hostIPs with
    | false =>
      rw [hin] at hloop
      simp only [Bool.false_eq_true, if_false] at hloop
      simp [chainedIPLoop, hp, hloop, expectedInstall, hin, ih h hwfr]
    | true =>
      rw [hin, hi] at hloop
      simp only [if_true] at hloop
      simp [chainedIPLoop, hp, hloop, expectedInstall, hin, ih _ hwfr, KOp.succeeded,
        chainedRule_eq, chainedRoute_eq]

/-! ## The host route installer: the function -/

theorem addChainedIPRoute_resolved (env : Env) (h : List Ev) (v4 v6 : Bool) (tbl : Int)
    (overlay : String) (chainedIPs : List String) (link peer : LinkAttrs)
    (hostIPs : List String)
    (hname : env.LinkByName h overlay = .ok link) (hidx : 0 ≤ link.ParentIndex)
    (hpeer : env.LinkByIndex (h ++ [Ev.LinkByName overlay (.ok link)]) link.ParentIndex =
      .ok peer)
    (hhost : env.GetHostIps (h ++ [Ev.LinkByName overlay (.ok link),
      Ev.LinkByIndex link.ParentIndex (.ok peer)]) true true = .ok hostIPs) :
    addChainedIPRoute env h false v4 v6 tbl overlay chainedIPs =
      ((chainedIPLoop env tbl link.ParentIndex hostIPs
          (h ++ resolvedPrologue overlay link peer hostIPs) chainedIPs).1.map LoopErr.toErr,
       resolvedPrologue overlay link peer hostIPs ++
        (chainedIPLoop env tbl link.ParentIndex hostIPs
          (h ++ resolvedPrologue overlay link peer hostIPs) chainedIPs).2) := by
  have hidx1 : ¬ link.ParentIndex < 0 := not_lt.mpr hidx
  simp [addChainedIPRoute, hname, hidx1, hpeer, hhost, resolvedPrologue]

/-- Every rule add and route add of `addChainedIPRoute` is for a chained address
of its list. -/
theorem addChainedIPRoute_events (env : Env) (h : List Ev) (sriov v4 v6 : Bool) (tbl : Int)
    (overlay : String) (chainedIPs : List String) :
    ∀ ev ∈ (addChainedIPRoute env h sriov v4 v6 tbl overlay chainedIPs).2,
      ∀ op, ev.kernelOp = some op →
      ∃ c ∈ chainedIPs, ∃ netIP ipNet, env.ParseCIDR c = .ok (netIP, ipNet) ∧
        ∃ pidx, op = KOp.rule (chainedRule tbl netIP) ∨
          op = KOp.route (chainedRoute tbl pidx netIP) := by
  intro ev hev op hop
  unfold addChainedIPRoute at hev
  cases sriov with
  | true => simp at hev
  | false =>
    simp only [Bool.false_eq_true, if_false] at hev
    cases hname : env.LinkByName h overlay with
    | error e => simp [hname] at hev; subst hev; simp [Ev.kernelOp] at hop
    | ok link =>
      simp only [hname] at hev
      by_cases hidx : link.ParentIndex < 0
      · simp [hidx] at hev; subst hev; simp [Ev.kernelOp] at hop
      · simp only [hidx, if_false] at hev
        cases hpeer : env.LinkByIndex (h ++ [Ev.LinkByName overlay (.ok link)])
            link.ParentIndex with
        | error e =>
          simp [hpeer] at hev
          rcases hev with hev | hev <;> subst hev <;> simp [Ev.kernelOp] at hop
        | ok peer =>
          simp only [hpeer] at hev
          cases hhost : env.GetHostIps (h ++ [Ev.LinkByName overlay (.ok link),
              Ev.LinkByIndex link.ParentIndex (.ok peer)]) true true with
          | error e =>
            simp [hhost] at hev
            rcases hev with hev | hev | hev <;> subst hev <;> simp [Ev.kernelOp] at hop
          | ok hostIPs =>
            simp [hhost] at hev
            rcases hev with hev | hev | hev | hev
            · subst hev; simp [Ev.kernelOp] at hop
            · subst hev; simp [Ev.kernelOp] at hop
            · subst hev; simp [Ev.kernelOp] at hop
            · obtain ⟨c, hc, netIP, ipNet, hp, hx⟩ :=
                chainedIPLoop_events env tbl link.ParentIndex hostIPs chainedIPs _ ev hev
              refine ⟨c, hc, netIP, ipNet, hp, link.ParentIndex, ?_⟩
              rcases hx with ⟨a, ha⟩ | ⟨a, ha⟩
              · subst ha; simp [Ev.kernelOp] at hop; exact Or.inl hop.symm
              · subst ha; simp [Ev.kernelOp] at hop; exact Or.inr hop.symm

/-! ## Claims on the host route installer -/

/-- C5: with the overlay interface, its parent link and the host addresses resolved,
well formed chained and host addresses and every rule add and route add succeeding,
`addChainedIPRoute` returns nil and issues, after the three lookups, exactly the
operations of `expectedInstall`: for each chained address in order with a host
address inside its prefix one rule (host table, family of the address, destination
the address itself) followed by one link scope route (same destination and table,
link index the parent index), nothing for the other chained addresses; every
destination has mask /32 for an IPv4 address and /128 for an IPv6 address. -/
theorem C5_host_route_installation (env : Env) (h : List Ev) (v4 v6 : Bool) (tbl : Int)
    (overlay : String) (chainedIPs : List String) (link peer : LinkAttrs)
    (hostIPs : List String)
    (hname : env.LinkByName h overlay = .ok link) (hidx : 0 ≤ link.ParentIndex)
    (hpeer : env.LinkByIndex (h ++ [Ev.LinkByName overlay (.ok link)]) link.ParentIndex =
      .ok peer)
    (hhost : env.GetHostIps (h ++ [Ev.LinkByName overlay (.ok link),
      Ev.LinkByIndex link.ParentIndex (.ok peer)]) true true = .ok hostIPs)
    (hwfc : wellFormed env chainedIPs) (hwfh : wellFormed env hostIPs)
    (hrule : ∀ h r, env.RuleAdd h r = none) (hroute : ∀ h r, env.RouteAdd h r = none) :
    addChainedIPRoute env h false v4 v6 tbl overlay chainedIPs =
        (none, resolvedPrologue overlay link peer hostIPs ++
          (expectedInstall env tbl link.ParentIndex hostIPs chainedIPs).map KOp.succeeded) ∧
      ∀ op ∈ expectedInstall env tbl link.ParentIndex hostIPs chainedIPs,
        (op.dst.IP.is4 = true ∧ op.dst.Mask = ⟨32, 32⟩) ∨
        (op.dst.IP.is4 = false ∧ op.dst.Mask = ⟨128, 128⟩) := by
  constructor
  · rw [addChainedIPRoute_resolved env h v4 v6 tbl overlay chainedIPs link peer hostIPs
      hname hidx hpeer hhost,
      chainedIPLoop_success env tbl link.ParentIndex hostIPs hwfh hrule hroute chainedIPs _ hwfc]
    rfl
  · clear hwfc
    induction chainedIPs with
    | nil => intro op hop; simp [expectedInstall] at hop
    | cons c rest ih =>
      intro op hop
      cases hp : env.ParseCIDR c with
      | error e => simp only [expectedInstall, hp] at hop; exact ih op hop
      | ok p =>
        obtain ⟨netIP, ipNet⟩ := p
        simp only [expectedInstall, hp, List.mem_append] at hop
        rcases hop with hop | hop
        · cases hin : hostInside env ipNet hostIPs with
          | false => simp [hin] at hop
          | true =>
            simp only [hin, if_true, List.mem_cons, List.mem_singleton,
              List.not_mem_nil, or_false] at hop
            cases h4 : netIP.is4 <;>
              rcases hop with hop | hop <;> subst hop <;> simp [KOp.dst, specDst, h4]
        · exact ih op hop

/-- C5, witness: chained interface `net1` with `10.0.0.5/24` and `192.168.1.9/24`,
host address `10.0.0.1/24`, parent index 7, host table 500: one rule and one link
scope route for `10.0.0.5/32`, nothing for `192.168.1.9`. -/
theorem C5_host_route_installation_witness :
    addChainedIPRoute (demoEnv demoConf) [] false true false 500 "eth0"
        ["10.0.0.5/24", "192.168.1.9/24"] =
      (none, resolvedPrologue "eth0" ⟨"eth0", 7⟩ ⟨"cali0", 0⟩ ["10.0.0.1/24"] ++
        (expectedInstall (demoEnv demoConf) 500 7 ["10.0.0.1/24"]
          ["10.0.0.5/24", "192.168.1.9/24"]).map KOp.succeeded) ∧
    expectedInstall (demoEnv demoConf) 500 7 ["10.0.0.1/24"]
        ["10.0.0.5/24", "192.168.1.9/24"] =
      [KOp.rule ⟨500, Family.FAMILY_V4, ⟨addr4 10 0 0 5, ⟨32, 32⟩⟩⟩,
       KOp.route ⟨7, ⟨addr4 10 0 0 5, ⟨32, 32⟩⟩, Scope.SCOPE_LINK, 500⟩] :=
  ⟨(C5_host_route_installation (demoEnv demoConf) [] true false 500 "eth0"
      ["10.0.0.5/24", "192.168.1.9/24"] ⟨"eth0", 7⟩ ⟨"cali0", 0⟩ ["10.0.0.1/24"]
      rfl (by decide) rfl rfl
      (by intro s hs
          simp only [List.mem_cons, List.mem_singleton, List.not_mem_nil, or_false] at hs
          rcases hs with hs | hs <;> subst hs <;> exact ⟨_, rfl⟩)
      (by intro s hs
          simp only [List.mem_singleton] at hs
          subst hs; exact ⟨_, rfl⟩)
      (fun _ _ => rfl) (fun _ _ => rfl)).1, by decide⟩

/-- C4 (amended): once the overlay interface, its parent link and the host addresses
are resolved, `addChainedIPRoute` returns what its loop returns, and the loop
(1) fails with a rule add or route add error if and only if some add it issued
answered an error not classified as already existing, (2) otherwise fails only with
the parse error of a malformed chained or host address, and (3) on well formed
addresses, when no add answered such an error (each answered nil or already exists),
returns nil after issuing exactly the operations of the all-success case, so the
route add follows every rule add and the loop goes on. -/
theorem C4_idempotent_installation (env : Env) (h : List Ev) (v4 v6 : Bool) (tbl : Int)
    (overlay : String) (chainedIPs : List String) (link peer : LinkAttrs)
    (hostIPs : List String)
    (hname : env.LinkByName h overlay = .ok link) (hidx : 0 ≤ link.ParentIndex)
    (hpeer : env.LinkByIndex (h ++ [Ev.LinkByName overlay (.ok link)]) link.ParentIndex =
      .ok peer)
    (hhost : env.GetHostIps (h ++ [Ev.LinkByName overlay (.ok link),
      Ev.LinkByIndex link.ParentIndex (.ok peer)]) true true = .ok hostIPs) :
    addChainedIPRoute env h false v4 v6 tbl overlay chainedIPs =
        ((chainedIPLoop env tbl link.ParentIndex hostIPs
            (h ++ resolvedPrologue overlay link peer hostIPs) chainedIPs).1.map LoopErr.toErr,
         resolvedPrologue overlay link peer hostIPs ++
          (chainedIPLoop env tbl link.ParentIndex hostIPs
            (h ++ resolvedPrologue overlay link peer hostIPs) chainedIPs).2) ∧
      ((∃ e, (chainedIPLoop env tbl link.ParentIndex hostIPs
            (h ++ resolvedPrologue overlay link peer hostIPs) chainedIPs).1 = some e ∧
          e.isInstall = true) ↔
        ∃ ev ∈ (chainedIPLoop env tbl link.ParentIndex hostIPs
            (h ++ resolvedPrologue overlay link peer hostIPs) chainedIPs).2,
          ev.installFailure = true) ∧
      (∀ e, (chainedIPLoop env tbl link.ParentIndex hostIPs
            (h ++ resolvedPrologue overlay link peer hostIPs) chainedIPs).1 =
          some (.parse e) → ∃ s ∈ chainedIPs ++ hostIPs, env.ParseCIDR s = .error e) ∧
      (wellFormed env chainedIPs → wellFormed env hostIPs →
        (∀ ev ∈ (chainedIPLoop env tbl link.ParentIndex hostIPs
            (h ++ resolvedPrologue overlay link peer hostIPs) chainedIPs).2,
          ev.installFailure = false) →
        (addChainedIPRoute env h false v4 v6 tbl overlay chainedIPs).1 = none ∧
        (addChainedIPRoute env h false v4 v6 tbl overlay chainedIPs).2.filterMap Ev.kernelOp =
          expectedInstall env tbl link.ParentIndex hostIPs chainedIPs) := by
  have hres := addChainedIPRoute_resolved env h v4 v6 tbl overlay chainedIPs link peer hostIPs
    hname hidx hpeer hhost
  refine ⟨hres, chainedIPLoop_failure_iff env tbl link.ParentIndex hostIPs chainedIPs _,
    fun e he => chainedIPLoop_parse env tbl link.ParentIndex hostIPs chainedIPs e _ he, ?_⟩
  intro hwfc hwfh hno
  have := chainedIPLoop_ops env tbl link.ParentIndex hostIPs hwfh chainedIPs _ hwfc hno
  rw [hres]
  refine ⟨by simp [this.1], ?_⟩
  rw [List.filterMap_append, this.2]
  simp [resolvedPrologue, Ev.kernelOp]

/-- C4, witness: every rule and route is already installed, so each add answers
"already exists"; the installation of `10.0.0.5/24` returns nil and issues the same
rule add and route add as a first installation. -/
theorem C4_idempotent_installation_witness :
    (addChainedIPRoute existEnv [] false true false 500 "eth0" ["10.0.0.5/24"]).1 = none ∧
    (addChainedIPRoute existEnv [] false true false 500 "eth0"
        ["10.0.0.5/24"]).2.filterMap Ev.kernelOp =
      expectedInstall existEnv 500 7 ["10.0.0.1/24"] ["10.0.0.5/24"] :=
  (C4_idempotent_installation existEnv [] true false 500 "eth0" ["10.0.0.5/24"]
    ⟨"eth0", 7⟩ ⟨"cali0", 0⟩ ["10.0.0.1/24"] rfl (by decide) rfl rfl).2.2.2
    (by intro s hs
        simp only [List.mem_singleton] at hs
        subst hs; exact ⟨_, rfl⟩)
    (by intro s hs
        simp only [List.mem_singleton] at hs
        subst hs; exact ⟨_, rfl⟩)
    (by decide)

/-- C4, counterexample: the chained list holds a text that is not a CIDR address.
The loop returns the parse error although no rule add and no route add was issued,
so none failed. -/
theorem C4_counterexample :
    addChainedIPRoute (demoEnv demoConf) [] false true false 500 "eth0" ["10.0.0.5"] =
      (some (Err.other 1),
       [Ev.LinkByName "eth0" (.ok ⟨"eth0", 7⟩), Ev.LinkByIndex 7 (.ok ⟨"cali0", 0⟩),
        Ev.GetHostIps true true (.ok ["10.0.0.1/24"])]) := by
  decide

/-- C6 (amended): `addChainedIPRoute` does not read `enableIpv4` and `enableIpv6`;
every rule and route it adds is for a chained address of the list it is given, of the
family of that address.  So when no address of the list is IPv6 it adds no IPv6 rule
or route, and when none is IPv4 it adds no IPv4 rule or route, whatever the flags
and the host addresses. -/
theorem C6_family_follows_chained_list (env : Env) (h : List Ev) (sriov v4 v6 w4 w6 : Bool)
    (tbl : Int) (overlay : String) (chainedIPs : List String) :
    addChainedIPRoute env h sriov v4 v6 tbl overlay chainedIPs =
        addChainedIPRoute env h sriov w4 w6 tbl overlay chainedIPs ∧
      ((∀ c ∈ chainedIPs, ∀ netIP ipNet, env.ParseCIDR c = .ok (netIP, ipNet) →
          netIP.is4 = true) →
        ∀ ev ∈ (addChainedIPRoute env h sriov v4 v6 tbl overlay chainedIPs).2,
          ∀ op, ev.kernelOp = some op → op.isV6 = false) ∧
      ((∀ c ∈ chainedIPs, ∀ netIP ipNet, env.ParseCIDR c = .ok (netIP, ipNet) →
          netIP.is4 = false) →
        ∀ ev ∈ (addChainedIPRoute env h sriov v4 v6 tbl overlay chainedIPs).2,
          ∀ op, ev.kernelOp = some op → op.isV4 = false) := by
  refine ⟨rfl, ?_, ?_⟩
  · intro hall ev hev op hop
    obtain ⟨c, hc, netIP, ipNet, hp, pidx, hx⟩ :=
      addChainedIPRoute_events env h sriov v4 v6 tbl overlay chainedIPs ev hev op hop
    have h4 := hall c hc netIP ipNet hp
    rcases hx with hx | hx <;> subst hx <;>
      simp [KOp.isV6, chainedRule_eq, chainedRoute_eq, specFamily, specDst, h4]
  · intro hall ev hev op hop
    obtain ⟨c, hc, netIP, ipNet, hp, pidx, hx⟩ :=
      addChainedIPRoute_events env h sriov v4 v6 tbl overlay chainedIPs ev hev op hop
    have h4 := hall c hc netIP ipNet hp
    rcases hx with hx | hx <;> subst hx <;>
      simp [KOp.isV4, chainedRule_eq, chainedRoute_eq, specFamily, specDst, h4]

/-- C6, witness: the chained list holds only the IPv4 address `10.0.0.5/24`; no
event of the call is an IPv6 rule or route. -/
theorem C6_family_follows_chained_list_witness :
    ∀ ev ∈ (addChainedIPRoute (demoEnv demoConf) [] false true false 500 "eth0"
        ["10.0.0.5/24"]).2, ∀ op, ev.kernelOp = some op → op.isV6 = false :=
  (C6_family_follows_chained_list (demoEnv demoConf) [] false true false true false 500
    "eth0" ["10.0.0.5/24"]).2.1
    (by intro c hc netIP ipNet hp
        simp only [List.mem_singleton] at hc
        subst hc
        have : (demoEnv demoConf).ParseCIDR "10.0.0.5/24" = .ok (cidr4 10 0 0 5 24) := rfl
        rw [this] at hp
        cases hp
        rfl)

/-- C6, counterexample: `enableIpv6` is false, the chained list holds `fd00::5/64`
and the host holds `fd00::1/64`; an IPv6 rule and a route to an IPv6 destination
are added. -/
theorem C6_counterexample :
    addChainedIPRoute v6HostEnv [] false true false 500 "eth0" ["fd00::5/64"] =
      (none,
       [Ev.LinkByName "eth0" (.ok ⟨"eth0", 7⟩), Ev.LinkByIndex 7 (.ok ⟨"cali0", 0⟩),
        Ev.GetHostIps true true (.ok ["fd00::1/64"]),
        Ev.RuleAdd ⟨500, Family.FAMILY_V6, ⟨⟨false, fd00 5⟩, ⟨128, 128⟩⟩⟩ none,
        Ev.RouteAdd ⟨7, ⟨⟨false, fd00 5⟩, ⟨128, 128⟩⟩, Scope.SCOPE_LINK, 500⟩ none]) := by
  decide

/-- C9, the code at the failing input: the overlay interface is found and has no
parent link (`ParentIndex` 0).  `addChainedIPRoute` does not return the error
"parentIndex on found": it looks up link 0 and returns the error of that lookup, and
where the lookup answers it adds the rule and the route with link index 0. -/
theorem C9_parent_index_zero :
    addChainedIPRoute noParentEnv [] false true false 500 "eth0" ["10.0.0.5/24"] =
      (some (Err.wrap "failed to found default overlay veth interface: %v" (Err.other 22)),
       [Ev.LinkByName "eth0" (.ok ⟨"eth0", 0⟩), Ev.LinkByIndex 0 (.error (Err.other 22))]) ∧
    addChainedIPRoute noParentEnv2 [] false true false 500 "eth0" ["10.0.0.5/24"] =
      (none,
       [Ev.LinkByName "eth0" (.ok ⟨"eth0", 0⟩), Ev.LinkByIndex 0 (.ok ⟨"cali0", 0⟩),
        Ev.GetHostIps true true (.ok ["10.0.0.1/24"]),
        Ev.RuleAdd ⟨500, Family.FAMILY_V4, ⟨addr4 10 0 0 5, ⟨32, 32⟩⟩⟩ none,
        Ev.RouteAdd ⟨0, ⟨addr4 10 0 0 5, ⟨32, 32⟩⟩, Scope.SCOPE_LINK, 500⟩ none]) := by
  decide

/-! ## Claims on the pod route installer -/

/-- C7 (amended): in a call of `addHostIPRoute` that is not passthrough and in which
the host addresses resolve, a `ruleTable` other than 100 gets exactly one route add,
into `ruleTable` itself; with `ruleTable` 100 the route is first added to the main
table, and it is added to table 100 next if and only if the main table add succeeded:
a refused main table add is returned and ends the call. -/
theorem C7_table_selection (env : Env) (h : List Ev) (ruleTable : Int) (overlay : String)
    (v4 v6 : Bool) (hostIPs : List String)
    (hhost : env.GetHostIps h v4 v6 = .ok hostIPs) :
    (ruleTable ≠ overlayRouteTable →
      addHostIPRoute env h ruleTable overlay false v4 v6 =
        (env.utilsRouteAdd (h ++ [Ev.GetHostIps v4 v6 (.ok hostIPs)]) ruleTable overlay
            hostIPs v4 v6,
         [Ev.GetHostIps v4 v6 (.ok hostIPs),
          Ev.utilsRouteAdd ruleTable overlay hostIPs v4 v6
            (env.utilsRouteAdd (h ++ [Ev.GetHostIps v4 v6 (.ok hostIPs)]) ruleTable overlay
              hostIPs v4 v6)])) ∧
    (ruleTable = overlayRouteTable →
      (env.utilsRouteAdd (h ++ [Ev.GetHostIps v4 v6 (.ok hostIPs)]) RT_TABLE_MAIN overlay
          hostIPs v4 v6 = none →
        addHostIPRoute env h ruleTable overlay false v4 v6 =
          (env.utilsRouteAdd (h ++ [Ev.GetHostIps v4 v6 (.ok hostIPs),
              Ev.utilsRouteAdd RT_TABLE_MAIN overlay hostIPs v4 v6 none]) 100 overlay
              hostIPs v4 v6,
           [Ev.GetHostIps v4 v6 (.ok hostIPs),
            Ev.utilsRouteAdd RT_TABLE_MAIN overlay hostIPs v4 v6 none,
            Ev.utilsRouteAdd 100 overlay hostIPs v4 v6
              (env.utilsRouteAdd (h ++ [Ev.GetHostIps v4 v6 (.ok hostIPs),
                Ev.utilsRouteAdd RT_TABLE_MAIN overlay hostIPs v4 v6 none]) 100 overlay
                hostIPs v4 v6)])) ∧
      (∀ err, env.utilsRouteAdd (h ++ [Ev.GetHostIps v4 v6 (.ok hostIPs)]) RT_TABLE_MAIN
          overlay hostIPs v4 v6 = some err →
        addHostIPRoute env h ruleTable overlay false v4 v6 =
          (some err,
           [Ev.GetHostIps v4 v6 (.ok hostIPs),
            Ev.utilsRouteAdd RT_TABLE_MAIN overlay hostIPs v4 v6 (some err)]))) := by
  refine ⟨fun hne => ?_, fun heq => ⟨fun hmain => ?_, fun err hmain => ?_⟩⟩
  · simp [addHostIPRoute, hhost, hne]
  · subst heq
    simp [addHostIPRoute, hhost, hmain, overlayRouteTable]
  · subst heq
    simp [addHostIPRoute, hhost, hmain]

/-- C7, witness: table 101 in the demo environment: one route add, into table 101;
the main table is not written. -/
theorem C7_table_selection_witness :
    addHostIPRoute (demoEnv demoConf) [] 101 "eth0" false true false =
      (none,
       [Ev.GetHostIps true false (.ok ["10.0.0.1/24"]),
        Ev.utilsRouteAdd 101 "eth0" ["10.0.0.1/24"] true false none]) :=
  (C7_table_selection (demoEnv demoConf) [] 101 "eth0" true false ["10.0.0.1/24"] rfl).1
    (by decide)

/-- C7, counterexample: with `ruleTable` 100 and a refused main table add, nothing
is added to table 100; with `ruleTable` 254, which is not 100, the one route add
writes the main table. -/
theorem C7_counterexample :
    addHostIPRoute mainFailEnv [] 100 "eth0" false true false =
      (some (Err.other 13),
       [Ev.GetHostIps true false (.ok ["10.0.0.1/24"]),
        Ev.utilsRouteAdd RT_TABLE_MAIN "eth0" ["10.0.0.1/24"] true false
          (some (Err.other 13))]) ∧
    addHostIPRoute (demoEnv demoConf) [] 254 "eth0" false true false =
      (none,
       [Ev.GetHostIps true false (.ok ["10.0.0.1/24"]),
        Ev.utilsRouteAdd RT_TABLE_MAIN "eth0" ["10.0.0.1/24"] true false none]) := by
  decide

/-! ## Claims on cmdDel -/

/-- C3: in a DEL invocation whose namespace open fails with the error
`ns.NSPathNotExistErr`, `cmdDel` returns nil, without panic, and the open is its only
event: no address discovery and no rule deletion; when the open fails with any other
error `cmdDel` returns the non-nil error "failed to open netns". -/
theorem C3_del_missing_namespace (env : Env) (args : CmdArgs) :
    (∀ err, isNSPathNotExistErr err = true →
      Ev.GetNS args.Netns (some err) ∈ (cmdDel env args).2 →
      cmdDel env args = (.ret none, [Ev.GetNS args.Netns (some err)])) ∧
    (∀ err, isNSPathNotExistErr err = false →
      Ev.GetNS args.Netns (some err) ∈ (cmdDel env args).2 →
      cmdDel env args = (.ret (some (.wrap "failed to open netns %q: %v" err)),
        [Ev.GetNS args.Netns (some err)])) := by
  constructor <;> intro err herr hmem <;> unfold cmdDel at hmem ⊢ <;>
    (cases hparse : parseConfig env args.StdinData with
     | error e => simp [hparse] at hmem
     | ok conf =>
       cases hlog : env.SetLogOptions conf.LogOptions with
       | some e => simp [hparse, hlog] at hmem
       | none =>
         cases hargs : env.LoadArgs args.Args with
         | some e => simp [hparse, hlog, hargs] at hmem
         | none =>
           cases hns : env.GetNS [] args.Netns with
           | none =>
             cases hrt : conf.HostRuleTable <;>
               simp [hparse, hlog, hargs, hns, hrt] at hmem
           | some e =>
             cases hne : isNSPathNotExistErr e <;>
               simp [hparse, hlog, hargs, hns, hne] at hmem ⊢ <;>
               subst hmem <;> simp_all)

/-- C3, witness: the namespace path of the invocation does not exist. -/
theorem C3_del_missing_namespace_witness :
    cmdDel missingNsEnv demoArgs =
      (.ret none, [Ev.GetNS "/var/run/netns/pod" (some Err.nsPathNotExist)]) :=
  (C3_del_missing_namespace missingNsEnv demoArgs).1 Err.nsPathNotExist rfl (by decide)

/-- C10, the code at the failing input: the configuration sets `only_op_mac` and
omits `host_rule_table`.  `parseConfig` accepts it and leaves `HostRuleTable` nil;
`cmdDel` on an existing namespace dereferences it after the address discovery, and
`cmdAdd`, when `mac_prefix` is empty too, dereferences it after the neighbor step. -/
theorem C10_nil_host_rule_table :
    parseConfig (demoEnv macOnlyConf) demoArgs.StdinData = .ok macOnlyParsed ∧
    macOnlyParsed.HostRuleTable = none ∧
    cmdDel (demoEnv macOnlyConf) demoArgs =
      (.nilDeref "conf.HostRuleTable",
       [Ev.GetNS "/var/run/netns/pod" none,
        Ev.GetChainedInterfaceIps "net1" true true (.ok ["10.0.0.5/24"]),
        Ev.Close]) ∧
    (parseConfig (demoEnv macOnlyNoPrefixConf) demoArgs.StdinData).toOption.map
        (fun c => (c.OnlyOpMac, c.MacPrefix, c.HostRuleTable)) = some (true, "", none) ∧
    (cmdAdd (demoEnv macOnlyNoPrefixConf) demoArgs).1 = .nilDeref "conf.HostRuleTable" := by
  decide

/-! ## Claims on cmdAdd: the two short exits -/

/-- C1 (amended): in an invocation whose configuration parses with `skip_call` set,
`cmdAdd` opens no namespace and runs no check, rewrite, neighbor, sysctl, rule or
route operation: its only possible event is the printing of the unmodified previous
result.  When the logger setup and the loading of the pod arguments succeed it returns
the result of that printing; when one of them fails it returns that error and prints
nothing. -/
theorem C1_skip_semantics (env : Env) (args : CmdArgs) (conf : PluginConf)
    (hparse : parseConfig env args.StdinData = .ok conf) (hskip : conf.Skipped = true) :
    (∀ ev ∈ (cmdAdd env args).2,
      ev = Ev.PrintResult conf.NetConf.PrevResult conf.NetConf.CNIVersion
        (env.PrintResult [] conf.NetConf.PrevResult conf.NetConf.CNIVersion)) ∧
    (env.SetLogOptions conf.LogOptions = none → env.LoadArgs args.Args = none →
      cmdAdd env args =
        (.ret (env.PrintResult [] conf.NetConf.PrevResult conf.NetConf.CNIVersion),
         [Ev.PrintResult conf.NetConf.PrevResult conf.NetConf.CNIVersion
           (env.PrintResult [] conf.NetConf.PrevResult conf.NetConf.CNIVersion)])) ∧
    (∀ err, env.SetLogOptions conf.LogOptions = some err →
      cmdAdd env args = (.ret (some (.wrap "faild to init logger: %v " err)), [])) ∧
    (∀ err, env.SetLogOptions conf.LogOptions = none → env.LoadArgs args.Args = some err →
      cmdAdd env args =
        (.ret (some (.wrap "failed to get pod information, error=%+v" err)), [])) := by
  refine ⟨?_, ?_, ?_, ?_⟩
  · intro ev hev
    unfold cmdAdd at hev
    cases hlog : env.SetLogOptions conf.LogOptions with
    | some e => simp [hparse, hlog] at hev
    | none =>
      cases hargs : env.LoadArgs args.Args with
      | some e => simp [hparse, hlog, hargs] at hev
      | none => simpa [hparse, hlog, hargs, hskip] using hev
  · intro hlog hargs
    simp [cmdAdd, hparse, hlog, hargs, hskip]
  · intro err hlog
    simp [cmdAdd, hparse, hlog]
  · intro err hlog hargs
    simp [cmdAdd, hparse, hlog, hargs]

/-- C1, witness: `skip_call` set in the demo environment: the previous result is
printed and returned, nothing else happens. -/
theorem C1_skip_semantics_witness :
    cmdAdd (demoEnv skipConf) demoArgs =
      (.ret none, [Ev.PrintResult (some demoPrev) "0.4.0" none]) :=
  (C1_skip_semantics (demoEnv skipConf) demoArgs skipParsed rfl rfl).2.1 rfl rfl

/-- C1, counterexample: the configuration parses with `skip_call` set, but
`types.LoadArgs` rejects the arguments: `cmdAdd` returns that error instead of the
result of printing the previous result (which would be nil), and prints nothing. -/
theorem C1_counterexample :
    parseConfig badArgsEnv demoArgs.StdinData = .ok skipParsed ∧
    skipParsed.Skipped = true ∧
    badArgsEnv.PrintResult [] skipParsed.NetConf.PrevResult skipParsed.NetConf.CNIVersion =
      none ∧
    cmdAdd badArgsEnv demoArgs =
      (.ret (some (.wrap "failed to get pod information, error=%+v" (Err.other 5))), []) := by
  decide

theorem ipConflictStep_events (env : Env) (args : CmdArgs) (conf : PluginConf)
    (prevResult : Result) (h : List Ev) :
    (ipConflictStep env args conf prevResult h).2 = h ∨
    ∃ r, (ipConflictStep env args conf prevResult h).2 =
      h ++ [Ev.DoIPConflictChecking args.IfName prevResult.IPs r] := by
  unfold ipConflictStep
  cases conf.IPConflict with
  | none => exact Or.inl rfl
  | some ic =>
    cases hen : ic.Enabled with
    | false => left; simp [hen]
    | true =>
      right
      exact ⟨env.DoIPConflictChecking h args.IfName prevResult.IPs ic, by simp [hen]⟩

theorem cmdAddInNetns_macOnly (env : Env) (args : CmdArgs) (conf : PluginConf)
    (prevResult : Result) (pre : String) (h : List Ev)
    (hmac : conf.OnlyOpMac = true) (hpre : conf.MacPrefix.length ≠ 0)
    (hh : ∀ ev ∈ h, ev.isRouting = false)
    (hm : ∀ mac, Ev.OverwriteMacAddress conf.MacPrefix args.IfName (.ok mac) ∉ h) :
    (∀ ev ∈ (cmdAddInNetns env args conf prevResult pre h).2, ev.isRouting = false) ∧
    (∀ mac, Ev.OverwriteMacAddress conf.MacPrefix args.IfName (.ok mac) ∈
        (cmdAddInNetns env args conf prevResult pre h).2 →
      ∃ r, (cmdAddInNetns env args conf prevResult pre h).1 = .ret r ∧
        Ev.PrintResult conf.NetConf.PrevResult conf.NetConf.CNIVersion r ∈
          (cmdAddInNetns env args conf prevResult pre h).2) := by
  unfold cmdAddInNetns
  have hc2 : (∀ ev ∈ (ipConflictStep env args conf prevResult h).2, ev.isRouting = false) ∧
      (∀ mac, Ev.OverwriteMacAddress conf.MacPrefix args.IfName (.ok mac) ∉
        (ipConflictStep env args conf prevResult h).2) := by
    rcases ipConflictStep_events env args conf prevResult h with he | ⟨r, he⟩
    · rw [he]; exact ⟨hh, hm⟩
    · rw [he]
      constructor
      · intro ev hev
        simp only [List.mem_append, List.mem_singleton] at hev
        rcases hev with hev | hev
        · exact hh ev hev
        · subst hev; rfl
      · intro mac hmem
        simp only [List.mem_append, List.mem_singleton] at hmem
        rcases hmem with hmem | hmem
        · exact hm mac hmem
        · cases hmem
  cases hstep : ipConflictStep env args conf prevResult h with
  | mk c1 c2 =>
  rw [hstep] at hc2
  obtain ⟨hr, hnm⟩ := hc2
  simp only at hr hnm
  cases c1 with
  | some err =>
    exact ⟨by simpa using hr, fun mac hmem => absurd (by simpa using hmem) (hnm mac)⟩
  | none =>
    simp only [hpre, ne_eq, not_false_eq_true, if_true, hmac]
    cases hw : env.OverwriteMacAddress c2 conf.MacPrefix args.IfName with
    | error e =>
      constructor
      · intro ev hev
        simp only [List.mem_append, List.mem_singleton] at hev
        rcases hev with hev | hev
        · exact hr ev hev
        · subst hev; rfl
      · intro mac hmem
        simp only [List.mem_append, List.mem_singleton] at hmem
        rcases hmem with hmem | hmem
        · exact absurd hmem (hnm mac)
        · cases hmem
    | ok m =>
      constructor
      · intro ev hev
        simp only [List.mem_append, List.mem_singleton] at hev
        rcases hev with (hev | hev) | hev
        · exact hr ev hev
        · subst hev; rfl
        · subst hev; rfl
      · intro mac _
        exact ⟨_, rfl, by simp⟩

/-- C2 (amended): for a configuration that `parseConfig` accepts with `only_op_mac`
set and a non-empty `mac_prefix`, no event of `cmdAdd` belongs to the routing part: no
address inspection, table allocation, neighbor, sysctl, host route, pod route, hijack
or migrate step runs; and in an invocation in which the MAC rewrite runs and succeeds,
`cmdAdd` returns the result of printing the unmodified previous result. -/
theorem C2_mac_only (env : Env) (args : CmdArgs) (conf : PluginConf)
    (hparse : parseConfig env args.StdinData = .ok conf)
    (hmac : conf.OnlyOpMac = true) (hpre : conf.MacPrefix.length ≠ 0) :
    (∀ ev ∈ (cmdAdd env args).2, ev.isRouting = false) ∧
    (∀ mac, Ev.OverwriteMacAddress conf.MacPrefix args.IfName (.ok mac) ∈
        (cmdAdd env args).2 →
      ∃ r, (cmdAdd env args).1 = .ret r ∧
        Ev.PrintResult conf.NetConf.PrevResult conf.NetConf.CNIVersion r ∈
          (cmdAdd env args).2) := by
  unfold cmdAdd
  simp only [hparse]
  cases hlog : env.SetLogOptions conf.LogOptions with
  | some e => simp
  | none =>
    cases hargs : env.LoadArgs args.Args with
    | some e => simp
    | none =>
      cases hskip : conf.Skipped with
      | true => simp [Ev.isRouting]
      | false =>
        cases hprev : conf.NetConf.PrevResult with
        | none => simp
        | some prev =>
          cases hres : env.GetResult prev with
          | error e => simp [hres]
          | ok prevResult =>
            cases hitf : prevResult.Interfaces with
            | nil => simp [hres, hitf]
            | cons itf rest =>
              by_cases hlen : itf.Name.length = 0
              · simp [hres, hitf, hlen]
              · cases hns : env.GetNS [] args.Netns with
                | some e => simp [hres, hitf, hlen, hns, Ev.isRouting]
                | none =>
                  have hin := cmdAddInNetns_macOnly env args conf prevResult itf.Name
                    [Ev.GetNS args.Netns none] hmac hpre
                    (by intro ev hev
                        simp only [List.mem_singleton] at hev
                        subst hev; rfl)
                    (by intro mac hmem
                        simp only [List.mem_singleton] at hmem
                        cases hmem)
                  simp only [hres, hitf, hns, hlen, if_false, Bool.false_eq_true, hprev]
                    at hin ⊢
                  constructor
                  · intro ev hev
                    simp only [List.mem_append, List.mem_singleton] at hev
                    rcases hev with hev | hev
                    · exact hin.1 ev hev
                    · subst hev; rfl
                  · intro mac hmem
                    simp only [List.mem_append, List.mem_singleton] at hmem
                    rcases hmem with hmem | hmem
                    · obtain ⟨r, h1, h2⟩ := hin.2 mac hmem
                      exact ⟨r, h1, by simp [h2]⟩
                    · cases hmem

/-- C2, witness: `only_op_mac` with prefix `0a:1b` in the demo environment: the
namespace is opened, the MAC is rewritten, the previous result is printed and
returned. -/
theorem C2_mac_only_witness :
    (∀ ev ∈ (cmdAdd (demoEnv macOnlyConf) demoArgs).2, ev.isRouting = false) ∧
    (∀ mac, Ev.OverwriteMacAddress macOnlyParsed.MacPrefix demoArgs.IfName (.ok mac) ∈
        (cmdAdd (demoEnv macOnlyConf) demoArgs).2 →
      ∃ r, (cmdAdd (demoEnv macOnlyConf) demoArgs).1 = .ret r ∧
        Ev.PrintResult macOnlyParsed.NetConf.PrevResult macOnlyParsed.NetConf.CNIVersion r ∈
          (cmdAdd (demoEnv macOnlyConf) demoArgs).2) ∧
    cmdAdd (demoEnv macOnlyConf) demoArgs =
      (.ret none,
       [Ev.GetNS "/var/run/netns/pod" none,
        Ev.OverwriteMacAddress "0a:1b" "net1" (.ok "0a:1b:0a:00:00:05"),
        Ev.PrintResult (some demoPrev) "0.4.0" none,
        Ev.Close]) :=
  ⟨(C2_mac_only (demoEnv macOnlyConf) demoArgs macOnlyParsed rfl rfl (by decide)).1,
   (C2_mac_only (demoEnv macOnlyConf) demoArgs macOnlyParsed rfl rfl (by decide)).2,
   by decide⟩

/-- C2, counterexample: two accepted configurations with `only_op_mac` set.  With
prefix `0a:1b` and a failing MAC rewrite, `cmdAdd` returns the MAC error and not the
previous result.  With no `mac_prefix`, the guard on the prefix length skips the MAC
rewrite and its exit: no MAC rewrite is performed, the address inspection, table
allocation and neighbor step run. -/
theorem C2_counterexample :
    parseConfig macFailEnv demoArgs.StdinData = .ok macOnlyParsed ∧
    cmdAdd macFailEnv demoArgs =
      (.ret (some (.new "failed to update mac address, maybe mac_prefix is invalid: %v")),
       [Ev.GetNS "/var/run/netns/pod" none,
        Ev.OverwriteMacAddress "0a:1b" "net1" (.error (Err.other 19)),
        Ev.Close]) ∧
    (parseConfig (demoEnv macOnlyNoPrefixConf) demoArgs.StdinData).toOption.map
        (fun c => (c.OnlyOpMac, c.MacPrefix)) = some (true, "") ∧
    (cmdAdd (demoEnv macOnlyNoPrefixConf) demoArgs).2 =
      [Ev.GetNS "/var/run/netns/pod" none,
       Ev.GetChainedInterfaceIps "net1" true false (.ok ["10.0.0.5/24"]),
       Ev.GetRuleNumber "net1" 101,
       Ev.AddStaticNeighTable false true false "" ["10.0.0.5/24"] none,
       Ev.Close] := by
  decide

/-! ## Claims on cmdAdd: the order of the pipeline -/

theorem addChainedIPRoute_step (env : Env) (h : List Ev) (sriov v4 v6 : Bool) (tbl : Int)
    (overlay : String) (chainedIPs : List String) :
    ∀ ev ∈ (addChainedIPRoute env h sriov v4 v6 tbl overlay chainedIPs).2,
      ev.step = none := by
  intro ev hev
  unfold addChainedIPRoute at hev
  cases sriov with
  | true => simp at hev
  | false =>
    simp only [Bool.false_eq_true, if_false] at hev
    cases hname : env.LinkByName h overlay with
    | error e => simp [hname] at hev; subst hev; rfl
    | ok link =>
      simp only [hname] at hev
      by_cases hidx : link.ParentIndex < 0
      · simp [hidx] at hev; subst hev; rfl
      · simp only [hidx, if_false] at hev
        cases hpeer : env.LinkByIndex (h ++ [Ev.LinkByName overlay (.ok link)])
            link.ParentIndex with
        | error e =>
          simp [hpeer] at hev
          rcases hev with hev | hev <;> subst hev <;> rfl
        | ok peer =>
          simp only [hpeer] at hev
          cases hhost : env.GetHostIps (h ++ [Ev.LinkByName overlay (.ok link),
              Ev.LinkByIndex link.ParentIndex (.ok peer)]) true true with
          | error e =>
            simp [hhost] at hev
            rcases hev with hev | hev | hev <;> subst hev <;> rfl
          | ok hostIPs =>
            simp [hhost] at hev
            rcases hev with hev | hev | hev | hev
            · subst hev; rfl
            · subst hev; rfl
            · subst hev; rfl
            · obtain ⟨c, _, netIP, ipNet, _, hx⟩ :=
                chainedIPLoop_events env tbl link.ParentIndex hostIPs chainedIPs _ ev hev
              rcases hx with ⟨a, ha⟩ | ⟨a, ha⟩ <;> subst ha <;> rfl

theorem addHostIPRoute_step (env : Env) (h : List Ev) (tbl : Int) (overlay : String)
    (sriov v4 v6 : Bool) :
    ∀ ev ∈ (addHostIPRoute env h tbl overlay sriov v4 v6).2, ev.step = none := by
  intro ev hev
  unfold addHostIPRoute at hev
  cases sriov with
  | true => simp at hev
  | false =>
    simp only [Bool.false_eq_true, if_false] at hev
    cases hhost : env.GetHostIps h v4 v6 with
    | error e => simp [hhost] at hev; subst hev; rfl
    | ok hostIPs =>
      simp only [hhost] at hev
      by_cases htbl : tbl = overlayRouteTable
      · simp only [htbl, if_true] at hev
        cases hmain : env.utilsRouteAdd (h ++ [Ev.GetHostIps v4 v6 (.ok hostIPs)])
            RT_TABLE_MAIN overlay hostIPs v4 v6 with
        | some e =>
          simp [hmain] at hev
          rcases hev with hev | hev <;> subst hev <;> rfl
        | none =>
          simp [hmain] at hev
          rcases hev with hev | hev | hev <;> subst hev <;> rfl
      · simp [htbl] at hev
        rcases hev with hev | hev <;> subst hev <;> rfl

theorem filterMap_step_nil {l : List Ev} (hl : ∀ ev ∈ l, ev.step = none) :
    l.filterMap Ev.step = [] := by
  induction l with
  | nil => rfl
  | cons a t ih =>
    have ha := hl a (List.mem_cons_self _ _)
    simp [List.filterMap_cons, ha, ih (fun ev hev => hl ev (List.mem_cons_of_mem _ hev))]

theorem not_done_of_fresh {h : List Ev} (hfresh : ∀ ev ∈ h, ev.step ≠ some Step.rpFilter)
    (rp : Option RPFilter) (res : Option Err) : Ev.SysctlRPFilter rp res ∉ h :=
  fun hmem => hfresh _ hmem rfl

theorem cmdAddHijack_steps (env : Env) (conf : PluginConf) (pre : String) (v4 v6 : Bool)
    (tbl : Int) (h : List Ev) (hfresh : ∀ ev ∈ h, ev.step ≠ some Step.rpFilter) :
    (∃ rp, Ev.SysctlRPFilter rp none ∈ (cmdAddHijack env conf pre v4 v6 tbl h).2) →
    (cmdAddHijack env conf pre v4 v6 tbl h).2.filterMap Ev.step =
      h.filterMap Ev.step ++
        [Step.addressInspection, Step.subnetHijacker, Step.routeMigrator, Step.rpFilter] := by
  have hnot : ∀ rp, Ev.SysctlRPFilter rp none ∉ h := fun rp => not_done_of_fresh hfresh rp none
  unfold cmdAddHijack
  simp only []
  split
  · rintro ⟨rp, hrp⟩
    simp [hnot] at hrp
  · split
    · rintro ⟨rp, hrp⟩
      simp [hnot] at hrp
    · split
      · rintro ⟨rp, hrp⟩
        simp [hnot] at hrp
      · split
        · rintro ⟨rp, hrp⟩
          simp [hnot] at hrp
        · split
          · rintro ⟨rp, hrp⟩
            simp_all
          · intro _
            simp [List.filterMap_append, Ev.step]

theorem cmdAddRoutes_steps (env : Env) (conf : PluginConf) (pre : String) (v4 v6 : Bool)
    (tbl : Int) (ips : List String) (h : List Ev)
    (hfresh : ∀ ev ∈ h, ev.step ≠ some Step.rpFilter) :
    (∃ rp, Ev.SysctlRPFilter rp none ∈ (cmdAddRoutes env conf pre v4 v6 tbl ips h).2) →
    (cmdAddRoutes env conf pre v4 v6 tbl ips h).2.filterMap Ev.step =
      h.filterMap Ev.step ++
        [Step.hostRouteInstaller, Step.podRouteInstaller, Step.addressInspection,
         Step.subnetHijacker, Step.routeMigrator, Step.rpFilter] := by
  have hnot : ∀ rp, Ev.SysctlRPFilter rp none ∉ h := fun rp => not_done_of_fresh hfresh rp none
  unfold cmdAddRoutes
  cases hrt : conf.HostRuleTable with
  | none =>
    rintro ⟨rp, hrp⟩
    exact absurd hrp (hnot rp)
  | some hostRuleTable =>
    simp only []
    have hc := addChainedIPRoute_step env
      (h ++ [Ev.addChainedIPRoute conf.Sriov v4 v6 hostRuleTable conf.DefaultOverlayInterface ips])
      conf.Sriov v4 v6 hostRuleTable conf.DefaultOverlayInterface ips
    have hcn : ∀ rp, Ev.SysctlRPFilter rp none ∉ (addChainedIPRoute env
        (h ++ [Ev.addChainedIPRoute conf.Sriov v4 v6 hostRuleTable
          conf.DefaultOverlayInterface ips])
        conf.Sriov v4 v6 hostRuleTable conf.DefaultOverlayInterface ips).2 := by
      intro rp hmem
      have := hc _ hmem
      simp [Ev.step] at this
    split
    · rintro ⟨rp, hrp⟩
      simp only [List.mem_append, List.mem_singleton] at hrp
      rcases hrp with (hrp | hrp) | hrp
      · exact (hnot rp hrp).elim
      · cases hrp
      · exact (hcn rp hrp).elim
    · have ha := addHostIPRoute_step env
        (h ++ [Ev.addChainedIPRoute conf.Sriov v4 v6 hostRuleTable
            conf.DefaultOverlayInterface ips] ++
          (addChainedIPRoute env
            (h ++ [Ev.addChainedIPRoute conf.Sriov v4 v6 hostRuleTable
              conf.DefaultOverlayInterface ips])
            conf.Sriov v4 v6 hostRuleTable conf.DefaultOverlayInterface ips).2 ++
          [Ev.addHostIPRoute tbl conf.DefaultOverlayInterface conf.Sriov v4 v6])
        tbl conf.DefaultOverlayInterface conf.Sriov v4 v6
      have han : ∀ rp, Ev.SysctlRPFilter rp none ∉ (addHostIPRoute env
          (h ++ [Ev.addChainedIPRoute conf.Sriov v4 v6 hostRuleTable
              conf.DefaultOverlayInterface ips] ++
            (addChainedIPRoute env
              (h ++ [Ev.addChainedIPRoute conf.Sriov v4 v6 hostRuleTable
                conf.DefaultOverlayInterface ips])
              conf.Sriov v4 v6 hostRuleTable conf.DefaultOverlayInterface ips).2 ++
            [Ev.addHostIPRoute tbl conf.DefaultOverlayInterface conf.Sriov v4 v6])
          tbl conf.DefaultOverlayInterface conf.Sriov v4 v6).2 := by
        intro rp hmem
        have := ha _ hmem
        simp [Ev.step] at this
      split
      · rintro ⟨rp, hrp⟩
        simp only [List.mem_append, List.mem_singleton] at hrp
        rcases hrp with (((hrp | hrp) | hrp) | hrp) | hrp
        · exact (hnot rp hrp).elim
        · cases hrp
        · exact (hcn rp hrp).elim
        · cases hrp
        · exact (han rp hrp).elim
      · intro hdone
        have hfresh4 : ∀ ev ∈ h ++ [Ev.addChainedIPRoute conf.Sriov v4 v6 hostRuleTable
              conf.DefaultOverlayInterface ips] ++
            (addChainedIPRoute env
              (h ++ [Ev.addChainedIPRoute conf.Sriov v4 v6 hostRuleTable
                conf.DefaultOverlayInterface ips])
              conf.Sriov v4 v6 hostRuleTable conf.DefaultOverlayInterface ips).2 ++
            [Ev.addHostIPRoute tbl conf.DefaultOverlayInterface conf.Sriov v4 v6] ++
            (addHostIPRoute env
              (h ++ [Ev.addChainedIPRoute conf.Sriov v4 v6 hostRuleTable
                  conf.DefaultOverlayInterface ips] ++
                (addChainedIPRoute env
                  (h ++ [Ev.addChainedIPRoute conf.Sriov v4 v6 hostRuleTable
                    conf.DefaultOverlayInterface ips])
                  conf.Sriov v4 v6 hostRuleTable conf.DefaultOverlayInterface ips).2 ++
                [Ev.addHostIPRoute tbl conf.DefaultOverlayInterface conf.Sriov v4 v6])
              tbl conf.DefaultOverlayInterface conf.Sriov v4 v6).2,
            ev.step ≠ some Step.rpFilter := by
          intro ev hev
          simp only [List.mem_append, List.mem_singleton] at hev
          rcases hev with (((hev | hev) | hev) | hev) | hev
          · exact hfresh ev hev
          · subst hev; simp [Ev.step]
          · rw [hc ev hev]; simp
          · subst hev; simp [Ev.step]
          · rw [ha ev hev]; simp
        rw [cmdAddHijack_steps env conf pre v4 v6 tbl _ hfresh4 hdone]
        simp only [List.filterMap_append, filterMap_step_nil hc, filterMap_step_nil ha]
        simp [Ev.step]

theorem cmdAddRouting_steps (env : Env) (conf : PluginConf) (prevResult : Result)
    (pre : String) (h : List Ev) (hfresh : ∀ ev ∈ h, ev.step ≠ some Step.rpFilter) :
    (∃ rp, Ev.SysctlRPFilter rp none ∈ (cmdAddRouting env conf prevResult pre h).2) →
    (cmdAddRouting env conf prevResult pre h).2.filterMap Ev.step =
      h.filterMap Ev.step ++
        pipelineOrder (enableFamilies prevResult.IPs (false, false)).2 := by
  have hnot : ∀ rp, Ev.SysctlRPFilter rp none ∉ h := fun rp => not_done_of_fresh hfresh rp none
  unfold cmdAddRouting
  simp only []
  split
  · rintro ⟨rp, hrp⟩
    simp [hnot] at hrp
  · split
    · rintro ⟨rp, hrp⟩
      simp [hnot] at hrp
    · split
      · rintro ⟨rp, hrp⟩
        simp [hnot] at hrp
      · split
        · rename_i hv6
          split
          · rintro ⟨rp, hrp⟩
            simp [hnot] at hrp
          · intro hdone
            rw [cmdAddRoutes_steps env conf pre _ _ _ _ _ ?_ hdone]
            · simp [List.filterMap_append, Ev.step, pipelineOrder, hv6]
            · intro ev hev
              simp only [List.mem_append, List.mem_singleton] at hev
              rcases hev with (((hev | hev) | hev) | hev) | hev
              · exact hfresh ev hev
              all_goals subst hev; simp [Ev.step]
        · rename_i hv6
          intro hdone
          rw [cmdAddRoutes_steps env conf pre _ _ _ _ _ ?_ hdone]
          · simp [List.filterMap_append, Ev.step, pipelineOrder, hv6]
          · intro ev hev
            simp only [List.mem_append, List.mem_singleton] at hev
            rcases hev with ((hev | hev) | hev) | hev
            · exact hfresh ev hev
            all_goals subst hev; simp [Ev.step]

theorem cmdAddInNetns_steps (env : Env) (args : CmdArgs) (conf : PluginConf)
    (prevResult : Result) (pre : String) (h : List Ev)
    (hfresh : ∀ ev ∈ h, ev.step = none) :
    (∃ rp, Ev.SysctlRPFilter rp none ∈ (cmdAddInNetns env args conf prevResult pre h).2) →
    (cmdAddInNetns env args conf prevResult pre h).2.filterMap Ev.step =
      pipelineOrder (enableFamilies prevResult.IPs (false, false)).2 := by
  unfold cmdAddInNetns
  have hc2 : ∀ ev ∈ (ipConflictStep env args conf prevResult h).2, ev.step = none := by
    rcases ipConflictStep_events env args conf prevResult h with he | ⟨r, he⟩
    · rw [he]; exact hfresh
    · rw [he]
      intro ev hev
      simp only [List.mem_append, List.mem_singleton] at hev
      rcases hev with hev | hev
      · exact hfresh ev hev
      · subst hev; rfl
  cases hstep : ipConflictStep env args conf prevResult h with
  | mk c1 c2 =>
  rw [hstep] at hc2
  simp only at hc2
  have hnot : ∀ rp, Ev.SysctlRPFilter rp none ∉ c2 := by
    intro rp hmem
    have := hc2 _ hmem
    simp [Ev.step] at this
  have hfr : ∀ ev ∈ c2, ev.step ≠ some Step.rpFilter := by
    intro ev hev; rw [hc2 ev hev]; simp
  cases c1 with
  | some err =>
    rintro ⟨rp, hrp⟩
    exact (hnot rp hrp).elim
  | none =>
    simp only []
    split
    · split
      · rintro ⟨rp, hrp⟩
        simp [hnot] at hrp
      · split
        · rintro ⟨rp, hrp⟩
          simp [hnot] at hrp
        · intro hdone
          rw [cmdAddRouting_steps env conf prevResult pre _ ?_ hdone]
          · simp [List.filterMap_append, filterMap_step_nil hc2, Ev.step]
          · intro ev hev
            simp only [List.mem_append, List.mem_singleton] at hev
            rcases hev with hev | hev
            · exact hfr ev hev
            · subst hev; simp [Ev.step]
    · intro hdone
      rw [cmdAddRouting_steps env conf prevResult pre _ hfr hdone]
      simp [filterMap_step_nil hc2]

/-- C8 (amended): in an ADD invocation that reaches a successful `SysctlRPFilter`
(so it is not skipped, does not take the MAC-only exit, and every earlier step
succeeded), the steps run in exactly this order: address inspection of the chained
interface, table allocation, `AddStaticNeighTable`, `EnableIpv6Sysctl` when the
previous result holds an IPv6 address, `addChainedIPRoute`, `addHostIPRoute`, address
inspection of the default route interface, `HijackCustomSubnet`, `MigrateRoute`,
`SysctlRPFilter`. -/
theorem C8_pipeline_order (env : Env) (args : CmdArgs) (conf : PluginConf)
    (prev prevResult : Result)
    (hparse : parseConfig env args.StdinData = .ok conf)
    (hprev : conf.NetConf.PrevResult = some prev)
    (hres : env.GetResult prev = .ok prevResult)
    (hdone : ∃ rp, Ev.SysctlRPFilter rp none ∈ (cmdAdd env args).2) :
    (cmdAdd env args).2.filterMap Ev.step =
      pipelineOrder (enableFamilies prevResult.IPs (false, false)).2 := by
  revert hdone
  unfold cmdAdd
  simp only [hparse]
  cases hlog : env.SetLogOptions conf.LogOptions with
  | some e => rintro ⟨rp, hrp⟩; simp at hrp
  | none =>
    cases hargs : env.LoadArgs args.Args with
    | some e => rintro ⟨rp, hrp⟩; simp at hrp
    | none =>
      cases hskip : conf.Skipped with
      | true => rintro ⟨rp, hrp⟩; simp at hrp
      | false =>
        simp only [hprev, hres, Bool.false_eq_true, if_false]
        cases hitf : prevResult.Interfaces with
        | nil => rintro ⟨rp, hrp⟩; simp at hrp
        | cons itf rest =>
          by_cases hlen : itf.Name.length = 0
          · rintro ⟨rp, hrp⟩; simp [hlen] at hrp
          · cases hns : env.GetNS [] args.Netns with
            | some e => rintro ⟨rp, hrp⟩; simp [hlen] at hrp
            | none =>
              simp only [hlen, if_false]
              rintro ⟨rp, hrp⟩
              simp only [List.mem_append, List.mem_singleton] at hrp
              rcases hrp with hrp | hrp
              · rw [List.filterMap_append,
                  cmdAddInNetns_steps env args conf prevResult itf.Name _
                    (by intro ev hev
                        simp only [List.mem_singleton] at hev
                        subst hev; rfl)
                    ⟨rp, hrp⟩]
                simp [Ev.step]
              · cases hrp

/-- C8, witness: the demo invocation (IPv4 only) succeeds and runs the steps in the
order of `pipelineOrder`. -/
theorem C8_pipeline_order_witness :
    (cmdAdd (demoEnv demoConf) demoArgs).1 = .ret none ∧
    (cmdAdd (demoEnv demoConf) demoArgs).2.filterMap Ev.step =
      [Step.addressInspection, Step.tableAllocation, Step.neighborProvisioner,
       Step.hostRouteInstaller, Step.podRouteInstaller, Step.addressInspection,
       Step.subnetHijacker, Step.routeMigrator, Step.rpFilter] :=
  ⟨by decide,
   C8_pipeline_order (demoEnv demoConf) demoArgs demoParsed demoPrev demoPrev rfl rfl rfl
     ⟨some ⟨some true, some 2⟩, by decide⟩⟩

/-- C8, counterexample: a dual stack invocation in which every step succeeds.
`EnableIpv6Sysctl` runs before `addChainedIPRoute`, and `HijackCustomSubnet` runs
before `MigrateRoute`; the order differs from the claimed one, also when the address
inspections are left out of both. -/
theorem C8_counterexample :
    (cmdAdd (demoEnv dualConf) demoArgs).1 = .ret none ∧
    (cmdAdd (demoEnv dualConf) demoArgs).2.filterMap Ev.step =
      [Step.addressInspection, Step.tableAllocation, Step.neighborProvisioner,
       Step.ipv6Sysctl, Step.hostRouteInstaller, Step.podRouteInstaller,
       Step.addressInspection, Step.subnetHijacker, Step.routeMigrator, Step.rpFilter] ∧
    claimedOrder true =
      [Step.addressInspection, Step.tableAllocation, Step.neighborProvisioner,
       Step.hostRouteInstaller, Step.podRouteInstaller, Step.routeMigrator,
       Step.subnetHijacker, Step.ipv6Sysctl, Step.rpFilter] ∧
    ((cmdAdd (demoEnv dualConf) demoArgs).2.filterMap Ev.step).filter
        (fun s => decide (s ≠ Step.addressInspection)) ≠
      (claimedOrder true).filter (fun s => decide (s ≠ Step.addressInspection)) := by
  decide

end Router
